import Mathlib

/-!
# Verification of the lesspass-otp derivation engine

A shallow embedding, in Lean 4, of the `lesspass-otp` Rust crate: the
password-derivation pipeline (`LessPass::password`), the entropy pool
(`Entropy`), the charset model (`CharacterSet`), the OTP engine
(`Otp::hotp` / `Otp::totp_from_ts`), the seed cipher
(`LessPass::secret_otp`) and the fingerprint (`LessPass::get_fingerprint`).

Byte strings are modelled as `List Nat` (each element is one byte, the
UTF-8 bytes where the source uses `&str`), machine integers as `Nat` with
explicit reduction modulo `2^32` or `2^64` where the source relies on
fixed-width arithmetic, `BigUint` as plain `Nat`, and fallible operations
as `Except LessPassError` (or `Option` where the source can panic).

The external hash crates (`sha1`, `sha2`, `sha3`, `hmac`, `pbkdf2`) that
the source calls are modelled by direct implementations of the
corresponding standard algorithms (FIPS 180-4, FIPS 202, RFC 2104,
RFC 2898); the repository's own test suite pins their behaviour to the
RFC test vectors reproduced here.
-/

namespace LP

/-! ## Fixed-width helpers -/

/-- `2^32`, the modulus of `u32` arithmetic. -/
def M32 : Nat := 4294967296

/-- `2^64`, the modulus of `u64` arithmetic. -/
def M64 : Nat := 18446744073709551616

def add32 (a b : Nat) : Nat := (a + b) % M32

def rotr32 (x n : Nat) : Nat := ((x >>> n) ||| (x <<< (32 - n))) % M32

def rotl32 (x n : Nat) : Nat := ((x <<< n) ||| (x >>> (32 - n))) % M32

def add64 (a b : Nat) : Nat := (a + b) % M64

def rotr64 (x n : Nat) : Nat := ((x >>> n) ||| (x <<< (64 - n))) % M64

def rotl64 (x n : Nat) : Nat := ((x <<< n) ||| (x >>> (64 - n))) % M64

/-- Big-endian recombination of a byte list. -/
def fromBytesBE (l : List Nat) : Nat := l.foldl (fun acc b => acc * 256 + b) 0

/-- `w`-byte big-endian encoding of `n` (e.g. `u64::to_be_bytes` for `w = 8`). -/
def beBytes (w : Nat) (n : Nat) : List Nat :=
  (List.range w).map (fun i => (n >>> (8 * (w - 1 - i))) % 256)

/-- Split a list into consecutive chunks of `n` elements (fuel-driven). -/
def chunksGo (fuel : Nat) (n : Nat) (l : List Nat) : List (List Nat) :=
  match fuel, l with
  | 0, _ => []
  | _, [] => []
  | f + 1, l => l.take n :: chunksGo f n (l.drop n)

def chunks (n : Nat) (l : List Nat) : List (List Nat) := chunksGo l.length n l

/-! ## SHA-1 (FIPS 180-4) -/

/-- SHA-1 / SHA-256 state: for SHA-1 only the first five words are used. -/
structure S160 where
  a : Nat
  b : Nat
  c : Nat
  d : Nat
  e : Nat

def sha1IV : S160 := ⟨1732584193, 4023233417, 2562383102, 271733878, 3285377520⟩

/-- Extend a 16-word block to 80 words, accumulator kept in reverse order. -/
def sha1SchedRev : Nat → List Nat → List Nat
  | 0, ws => ws
  | f + 1, ws =>
      let w := rotl32 ((ws.getD 2 0) ^^^ (ws.getD 7 0) ^^^ (ws.getD 13 0) ^^^ (ws.getD 15 0)) 1
      sha1SchedRev f (w :: ws)

def sha1Round (s : S160) (tw : Nat × Nat) : S160 :=
  let t := tw.1
  let fk : Nat × Nat :=
    if t < 20 then ((s.b &&& s.c) ||| ((s.b ^^^ 4294967295) &&& s.d), 1518500249)
    else if t < 40 then (s.b ^^^ s.c ^^^ s.d, 1859775393)
    else if t < 60 then ((s.b &&& s.c) ||| (s.b &&& s.d) ||| (s.c &&& s.d), 2400959708)
    else (s.b ^^^ s.c ^^^ s.d, 3395469782)
  let tmp := (rotl32 s.a 5 + fk.1 + s.e + fk.2 + tw.2) % M32
  ⟨tmp, s.a, rotl32 s.b 30, s.c, s.d⟩

def sha1Compress (s : S160) (block : List Nat) : S160 :=
  let w16 := (chunks 4 block).map fromBytesBE
  let w := (sha1SchedRev 64 w16.reverse).reverse
  let r := ((List.range 80).zip w).foldl sha1Round s
  ⟨add32 s.a r.a, add32 s.b r.b, add32 s.c r.c, add32 s.d r.d, add32 s.e r.e⟩

/-- Merkle–Damgård padding for a 64-byte block size with a 64-bit length field. -/
def pad64 (msg : List Nat) : List Nat :=
  msg ++ 0x80 :: List.replicate ((64 - (msg.length + 9) % 64) % 64) 0 ++ beBytes 8 (msg.length * 8)

def s160Bytes (s : S160) : List Nat :=
  beBytes 4 s.a ++ beBytes 4 s.b ++ beBytes 4 s.c ++ beBytes 4 s.d ++ beBytes 4 s.e

def sha1 (msg : List Nat) : List Nat :=
  s160Bytes ((chunks 64 (pad64 msg)).foldl sha1Compress sha1IV)

/-! ## SHA-256 (FIPS 180-4) -/

structure S256 where
  a : Nat
  b : Nat
  c : Nat
  d : Nat
  e : Nat
  f : Nat
  g : Nat
  h : Nat

def sha256IV : S256 :=
  ⟨1779033703, 3144134277, 1013904242, 2773480762,
   1359893119, 2600822924, 528734635, 1541459225⟩

def sha256K : List Nat :=
  [1116352408, 1899447441, 3049323471, 3921009573, 961987163, 1508970993, 2453635748, 2870763221,
   3624381080, 310598401, 607225278, 1426881987, 1925078388, 2162078206, 2614888103, 3248222580,
   3835390401, 4022224774, 264347078, 604807628, 770255983, 1249150122, 1555081692, 1996064986,
   2554220882, 2821834349, 2952996808, 3210313671, 3336571891, 3584528711, 113926993, 338241895,
   666307205, 773529912, 1294757372, 1396182291, 1695183700, 1986661051, 2177026350, 2456956037,
   2730485921, 2820302411, 3259730800, 3345764771, 3516065817, 3600352804, 4094571909, 275423344,
   430227734, 506948616, 659060556, 883997877, 958139571, 1322822218, 1537002063, 1747873779,
   1955562222, 2024104815, 2227730452, 2361852424, 2428436474, 2756734187, 3204031479, 3329325298]

def sig0 (x : Nat) : Nat := (rotr32 x 7) ^^^ (rotr32 x 18) ^^^ (x >>> 3)

def sig1 (x : Nat) : Nat := (rotr32 x 17) ^^^ (rotr32 x 19) ^^^ (x >>> 10)

/-- Extend the 16-word block to 64 words; `ws` is kept in reverse order. -/
def sha256SchedRev : Nat → List Nat → List Nat
  | 0, ws => ws
  | f + 1, ws =>
      let w := (sig1 (ws.getD 1 0) + ws.getD 6 0 + sig0 (ws.getD 14 0) + ws.getD 15 0) % M32
      sha256SchedRev f (w :: ws)

def sha256Round (s : S256) (kw : Nat × Nat) : S256 :=
  let S1 := (rotr32 s.e 6) ^^^ (rotr32 s.e 11) ^^^ (rotr32 s.e 25)
  let ch := (s.e &&& s.f) ^^^ ((s.e ^^^ 4294967295) &&& s.g)
  let t1 := (s.h + S1 + ch + kw.1 + kw.2) % M32
  let S0 := (rotr32 s.a 2) ^^^ (rotr32 s.a 13) ^^^ (rotr32 s.a 22)
  let maj := (s.a &&& s.b) ^^^ (s.a &&& s.c) ^^^ (s.b &&& s.c)
  let t2 := (S0 + maj) % M32
  ⟨(t1 + t2) % M32, s.a, s.b, s.c, (s.d + t1) % M32, s.e, s.f, s.g⟩

def sha256Compress (s : S256) (block : List Nat) : S256 :=
  let w16 := (chunks 4 block).map fromBytesBE
  let w := (sha256SchedRev 48 w16.reverse).reverse
  let r := (sha256K.zip w).foldl sha256Round s
  ⟨add32 s.a r.a, add32 s.b r.b, add32 s.c r.c, add32 s.d r.d,
   add32 s.e r.e, add32 s.f r.f, add32 s.g r.g, add32 s.h r.h⟩

def s256Bytes (s : S256) : List Nat :=
  beBytes 4 s.a ++ beBytes 4 s.b ++ beBytes 4 s.c ++ beBytes 4 s.d ++
  beBytes 4 s.e ++ beBytes 4 s.f ++ beBytes 4 s.g ++ beBytes 4 s.h

def sha256 (msg : List Nat) : List Nat :=
  s256Bytes ((chunks 64 (pad64 msg)).foldl sha256Compress sha256IV)

/-! ## SHA-512 and SHA-384 (FIPS 180-4) -/

def sha512IV : S256 :=
  ⟨7640891576956012808, 13503953896175478587, 4354685564936845355, 11912009170470909681,
   5840696475078001361, 11170449401992604703, 2270897969802886507, 6620516959819538809⟩

def sha384IV : S256 :=
  ⟨14680500436340154072, 7105036623409894663, 10473403895298186519, 1526699215303891257,
   7436329637833083697, 10282925794625328401, 15784041429090275239, 5167115440072839076⟩

def sha512K : List Nat :=
  [4794697086780616226, 8158064640168781261, 13096744586834688815, 16840607885511220156,
   4131703408338449720, 6480981068601479193, 10538285296894168987, 12329834152419229976,
   15566598209576043074, 1334009975649890238, 2608012711638119052, 6128411473006802146,
   8268148722764581231, 9286055187155687089, 11230858885718282805, 13951009754708518548,
   16472876342353939154, 17275323862435702243, 1135362057144423861, 2597628984639134821,
   3308224258029322869, 5365058923640841347, 6679025012923562964, 8573033837759648693,
   10970295158949994411, 12119686244451234320, 12683024718118986047, 13788192230050041572,
   14330467153632333762, 15395433587784984357, 489312712824947311, 1452737877330783856,
   2861767655752347644, 3322285676063803686, 5560940570517711597, 5996557281743188959,
   7280758554555802590, 8532644243296465576, 9350256976987008742, 10552545826968843579,
   11727347734174303076, 12113106623233404929, 14000437183269869457, 14369950271660146224,
   15101387698204529176, 15463397548674623760, 17586052441742319658, 1182934255886127544,
   1847814050463011016, 2177327727835720531, 2830643537854262169, 3796741975233480872,
   4115178125766777443, 5681478168544905931, 6601373596472566643, 7507060721942968483,
   8399075790359081724, 8693463985226723168, 9568029438360202098, 10144078919501101548,
   10430055236837252648, 11840083180663258601, 13761210420658862357, 14299343276471374635,
   14566680578165727644, 15097957966210449927, 16922976911328602910, 17689382322260857208,
   500013540394364858, 748580250866718886, 1242879168328830382, 1977374033974150939,
   2944078676154940804, 3659926193048069267, 4368137639120453308, 4836135668995329356,
   5532061633213252278, 6448918945643986474, 6902733635092675308, 7801388544844847127]

def sig0w (x : Nat) : Nat := (rotr64 x 1) ^^^ (rotr64 x 8) ^^^ (x >>> 7)

def sig1w (x : Nat) : Nat := (rotr64 x 19) ^^^ (rotr64 x 61) ^^^ (x >>> 6)

def sha512SchedRev : Nat → List Nat → List Nat
  | 0, ws => ws
  | f + 1, ws =>
      let w := (sig1w (ws.getD 1 0) + ws.getD 6 0 + sig0w (ws.getD 14 0) + ws.getD 15 0) % M64
      sha512SchedRev f (w :: ws)

def sha512Round (s : S256) (kw : Nat × Nat) : S256 :=
  let S1 := (rotr64 s.e 14) ^^^ (rotr64 s.e 18) ^^^ (rotr64 s.e 41)
  let ch := (s.e &&& s.f) ^^^ ((s.e ^^^ 18446744073709551615) &&& s.g)
  let t1 := (s.h + S1 + ch + kw.1 + kw.2) % M64
  let S0 := (rotr64 s.a 28) ^^^ (rotr64 s.a 34) ^^^ (rotr64 s.a 39)
  let maj := (s.a &&& s.b) ^^^ (s.a &&& s.c) ^^^ (s.b &&& s.c)
  let t2 := (S0 + maj) % M64
  ⟨(t1 + t2) % M64, s.a, s.b, s.c, (s.d + t1) % M64, s.e, s.f, s.g⟩

def sha512Compress (s : S256) (block : List Nat) : S256 :=
  let w16 := (chunks 8 block).map fromBytesBE
  let w := (sha512SchedRev 64 w16.reverse).reverse
  let r := (sha512K.zip w).foldl sha512Round s
  ⟨add64 s.a r.a, add64 s.b r.b, add64 s.c r.c, add64 s.d r.d,
   add64 s.e r.e, add64 s.f r.f, add64 s.g r.g, add64 s.h r.h⟩

/-- Merkle–Damgård padding for a 128-byte block size with a 128-bit length field. -/
def pad128 (msg : List Nat) : List Nat :=
  msg ++ 0x80 :: List.replicate ((128 - (msg.length + 17) % 128) % 128) 0 ++
    beBytes 16 (msg.length * 8)

def s512Bytes (s : S256) : List Nat :=
  beBytes 8 s.a ++ beBytes 8 s.b ++ beBytes 8 s.c ++ beBytes 8 s.d ++
  beBytes 8 s.e ++ beBytes 8 s.f ++ beBytes 8 s.g ++ beBytes 8 s.h

def sha512 (msg : List Nat) : List Nat :=
  s512Bytes ((chunks 128 (pad128 msg)).foldl sha512Compress sha512IV)

def sha384 (msg : List Nat) : List Nat :=
  (s512Bytes ((chunks 128 (pad128 msg)).foldl sha512Compress sha384IV)).take 48

/-! ## SHA-3 (FIPS 202, Keccak) -/

def keccakRC : List Nat :=
  [1, 32898, 9223372036854808714, 9223372039002292224,
   32907, 2147483649, 9223372039002292353, 9223372036854808585,
   138, 136, 2147516425, 2147483658,
   2147516555, 9223372036854775947, 9223372036854808713, 9223372036854808579,
   9223372036854808578, 9223372036854775936, 32778, 9223372039002259466,
   9223372039002292353, 9223372036854808704, 2147483649, 9223372039002292232]

/-- Rotation offsets, indexed by `x + 5*y`. -/
def rhoOffsets : List Nat :=
  [0, 1, 62, 28, 27] ++ [36, 44, 6, 55, 20] ++ [3, 10, 43, 25, 39] ++
    [41, 45, 15, 21, 8] ++ [18, 2, 61, 56, 14]

/-- One Keccak-f[1600] round on 25 lanes (indexed by `x + 5*y`). -/
def keccakRound (lanes : List Nat) (rc : Nat) : List Nat :=
  let C := (List.range 5).map (fun x =>
    (lanes.getD x 0) ^^^ (lanes.getD (x + 5) 0) ^^^ (lanes.getD (x + 10) 0) ^^^
    (lanes.getD (x + 15) 0) ^^^ (lanes.getD (x + 20) 0))
  let D := (List.range 5).map (fun x =>
    (C.getD ((x + 4) % 5) 0) ^^^ rotl64 (C.getD ((x + 1) % 5) 0) 1)
  let A := (List.range 25).map (fun i => (lanes.getD i 0) ^^^ (D.getD (i % 5) 0))
  let B := (List.range 25).map (fun i =>
    -- B[y + 5*((2x+3y) mod 5)] = rot(A[x + 5y]); invert: lane at index i of B
    -- comes from the (x', y') with y' = x and (2x'+3y') mod 5 = y, i.e. x' = (y + x) ... computed
    -- directly below by searching the source index.
    let src := (List.range 25).findSome? (fun j =>
      let xj := j % 5
      let yj := j / 5
      if yj + 5 * ((2 * xj + 3 * yj) % 5) == i then some j else none)
    match src with
    | some j => rotl64 (A.getD j 0) (rhoOffsets.getD j 0)
    | none => 0)
  let X := (List.range 25).map (fun i =>
    let x := i % 5
    let y := i / 5
    (B.getD i 0) ^^^
      (((B.getD ((x + 1) % 5 + 5 * y) 0) ^^^ 18446744073709551615) &&& B.getD ((x + 2) % 5 + 5 * y) 0))
  X.set 0 ((X.getD 0 0) ^^^ rc)

def keccakF (lanes : List Nat) : List Nat := keccakRC.foldl keccakRound lanes

/-- SHA-3 padding (`0x06 … 0x80`) to a multiple of `rate` bytes. -/
def sha3Pad (rate : Nat) (msg : List Nat) : List Nat :=
  let padLen := rate - msg.length % rate
  if padLen == 1 then msg ++ [0x86]
  else msg ++ 0x06 :: List.replicate (padLen - 2) 0 ++ [0x80]

/-- Interpret 200 bytes as 25 little-endian 64-bit lanes. -/
def lanesOfBytes (bytes : List Nat) : List Nat :=
  (chunks 8 bytes).map (fun c => fromBytesBE c.reverse)

def bytesOfLanes (lanes : List Nat) : List Nat :=
  (lanes.map (fun lane => (beBytes 8 lane).reverse)).flatten

def absorbBlock (lanes : List Nat) (block : List Nat) : List Nat :=
  keccakF (List.zipWith (fun a b => a ^^^ b) lanes
    (lanesOfBytes (block ++ List.replicate (200 - block.length) 0)))

def keccakSponge (rate outLen : Nat) (msg : List Nat) : List Nat :=
  let final := (chunks rate (sha3Pad rate msg)).foldl absorbBlock (List.replicate 25 0)
  (bytesOfLanes final).take outLen

def sha3_256 (msg : List Nat) : List Nat := keccakSponge 136 32 msg

def sha3_384 (msg : List Nat) : List Nat := keccakSponge 104 48 msg

def sha3_512 (msg : List Nat) : List Nat := keccakSponge 72 64 msg

/-! ## HMAC (RFC 2104) and PBKDF2 (RFC 2898)

The source's `Algorithm::hmac` delegates to the `hmac` crate
(`Hmac::<H>::new_varkey`), and `Algorithm::pbkdf2` to the `pbkdf2` crate
with an output buffer of exactly the digest size.
-/

/-- HMAC with hash `hash` of block size `bs`. -/
def hmacWith (hash : List Nat → List Nat) (bs : Nat) (key msg : List Nat) : List Nat :=
  let k0 := if bs < key.length then hash key else key
  let k := k0 ++ List.replicate (bs - k0.length) 0
  hash ((k.map (fun b => b ^^^ 0x5c)) ++ hash ((k.map (fun b => b ^^^ 0x36)) ++ msg))

/-- Iteration of PBKDF2: `u` is the previous `U_i`, `acc` the running XOR. -/
def pbkdf2Go (hash : List Nat → List Nat) (bs : Nat) (key u acc : List Nat) :
    Nat → List Nat
  | 0 => acc
  | m + 1 =>
      let u2 := hmacWith hash bs key u
      pbkdf2Go hash bs key u2 (List.zipWith (fun a b => a ^^^ b) acc u2) m

/-- PBKDF2 with `c` iterations producing exactly one block (the digest size),
matching the source's output-buffer size. -/
def pbkdf2With (hash : List Nat → List Nat) (bs : Nat) (key salt : List Nat) (c : Nat) :
    List Nat :=
  let u1 := hmacWith hash bs key (salt ++ beBytes 4 1)
  pbkdf2Go hash bs key u1 u1 (c - 1)

/-! ## The `Algorithm` enum (`algo.rs`) -/

/-- Mirrors `enum Algorithm` in `algo.rs`. -/
inductive Algorithm where
  | SHA1
  | SHA256
  | SHA384
  | SHA512
  | SHA3_256
  | SHA3_384
  | SHA3_512
  deriving DecidableEq, Repr

/-- Underlying hash of an `Algorithm`. -/
def Algorithm.hash : Algorithm → List Nat → List Nat
  | .SHA1 => sha1
  | .SHA256 => sha256
  | .SHA384 => sha384
  | .SHA512 => sha512
  | .SHA3_256 => sha3_256
  | .SHA3_384 => sha3_384
  | .SHA3_512 => sha3_512

/-- HMAC block size of an `Algorithm`'s hash (the `hmac` crate uses the
hash's block size: 64 for SHA-1/SHA-256, 128 for SHA-384/SHA-512, and the
Keccak rate for the SHA-3 family). -/
def Algorithm.blockSize : Algorithm → Nat
  | .SHA1 => 64
  | .SHA256 => 64
  | .SHA384 => 128
  | .SHA512 => 128
  | .SHA3_256 => 136
  | .SHA3_384 => 104
  | .SHA3_512 => 72

/-- `Algorithm::hmac` in `algo.rs`. -/
def Algorithm.hmac (a : Algorithm) (key msg : List Nat) : List Nat :=
  hmacWith a.hash a.blockSize key msg

/-- `Algorithm::pbkdf2` in `algo.rs` (the output length is the digest size,
which equals one PBKDF2 block, so a single block is produced). -/
def Algorithm.pbkdf2 (a : Algorithm) (key data : List Nat) (iterations : Nat) : List Nat :=
  pbkdf2With a.hash a.blockSize key data iterations


/-! ## Errors (`errors.rs`) -/

/-- Mirrors `enum LessPassError` in `errors.rs`. -/
inductive LessPassError where
  | PasswordTooShort (min got : Nat)
  | PasswordTooLong (max got : Nat) (algorithm : Algorithm)
  | NoCharsetSelected
  | UnsupportedAlgorithm
  | InvalidLength
  | InvalidBase32
  deriving DecidableEq, Repr

/-! ## Hexadecimal rendering of the counter (`hex.rs`) -/

/-- The `HEX` table of `hex.rs`: the bytes of `"0123456789abcdef"`. -/
def HEX : List Nat :=
  [48, 49, 50, 51, 52, 53, 54, 55, 56, 57, 97, 98, 99, 100, 101, 102]

/-- `hex::hex`: two hex characters for the low byte, recursing on the rest
(fuel-driven; fuel 8 covers any `u32`). -/
def hexCore (fuel num : Nat) : List Nat :=
  let i := num &&& 0xff
  let ret := [HEX.getD ((i &&& 0xf0) >>> 4) 0, HEX.getD (i &&& 0x0f) 0]
  match fuel with
  | 0 => ret
  | f + 1 => if num >>> 8 > 0 then hexCore f (num >>> 8) ++ ret else ret

/-- `hex::to`: big-endian lowercase hex of a `u32`, no leading zero. -/
def hexTo (num : Nat) : List Nat :=
  if num < 16 then [HEX.getD num 0]
  else (hexCore 8 num).dropWhile (fun b => b == HEX.getD 0 0)

/-! ## Master secret (`master.rs`) -/

/-- Mirrors `struct Master` in `master.rs`; the master password is its
UTF-8 byte sequence. -/
structure Master where
  master : List Nat
  algorithm : Algorithm
  deriving DecidableEq, Repr

/-- `Master::new`: rejects the SHA-1 algorithm. -/
def Master.new (master : List Nat) (algorithm : Algorithm) : Except LessPassError Master :=
  if algorithm = Algorithm.SHA1 then Except.error LessPassError.UnsupportedAlgorithm
  else Except.ok ⟨master, algorithm⟩

def Master.bytes (m : Master) : List Nat := m.master

def Master.get_algorithm (m : Master) : Algorithm := m.algorithm

/-- `Master::fingerprint`: HMAC of the master bytes with the salt. -/
def Master.fingerprint (m : Master) (salt : List Nat) : List Nat :=
  m.algorithm.hmac m.bytes salt

/-! ## Entropy pool (`entropy.rs`) -/

/-- Mirrors `struct Entropy(BigUint)`. -/
structure Entropy where
  val : Nat
  deriving DecidableEq, Repr

/-- `Entropy::salt_byte`: concatenation of site, login and counter bytes. -/
def Entropy.salt_byte (site login counter : List Nat) : List Nat :=
  site ++ login ++ counter

/-- `Entropy::salt`: site and login bytes followed by the counter in hex. -/
def Entropy.salt (site login : List Nat) (counter : Nat) : List Nat :=
  Entropy.salt_byte site login (hexTo counter)

/-- `Entropy::new`: the PBKDF2 output interpreted as a big-endian unsigned
integer. -/
def Entropy.new (algorithm : Algorithm) (master : Master) (salt : List Nat)
    (iterations : Nat) : Entropy :=
  ⟨fromBytesBE (algorithm.pbkdf2 master.bytes salt iterations)⟩

/-- `Entropy::consume`: Euclidean division of the pool by `len`; the
quotient becomes the new pool, the remainder is returned. -/
def Entropy.consume (e : Entropy) (len : Nat) : Entropy × Nat :=
  (⟨e.val / len⟩, e.val % len)

/-! ## Charset model (`charset.rs`) -/

/-- Mirrors `enum Set` in `charset.rs`. -/
inductive Set where
  | Uppercase
  | Lowercase
  | Numbers
  | Symbols
  deriving DecidableEq, Repr

/-- Mirrors `enum CharacterSet` in `charset.rs` (one variant per subset of
the four flags). -/
inductive CharacterSet where
  | None
  | Lowercase
  | Uppercase
  | Numbers
  | Symbols
  | LowercaseUppercase
  | LowercaseNumbers
  | LowercaseSymbols
  | UppercaseNumbers
  | UppercaseSymbols
  | NumbersSymbols
  | LowercaseUppercaseNumbers
  | LowercaseUppercaseSymbols
  | LowercaseNumbersSymbols
  | UppercaseNumbersSymbols
  | LowercaseUppercaseNumbersSymbols
  deriving DecidableEq, Repr

namespace CharacterSet

/-- The bytes of `"abcdefghijklmnopqrstuvwxyz"`. -/
def LOWERCASE : List Nat :=
  [97, 98, 99, 100, 101, 102, 103, 104, 105, 106, 107, 108, 109, 110, 111, 112, 113, 114,
   115, 116, 117, 118, 119, 120, 121, 122]

/-- The bytes of `"ABCDEFGHIJKLMNOPQRSTUVWXYZ"`. -/
def UPPERCASE : List Nat :=
  [65, 66, 67, 68, 69, 70, 71, 72, 73, 74, 75, 76, 77, 78, 79, 80, 81, 82, 83, 84, 85, 86,
   87, 88, 89, 90]

/-- The bytes of `"0123456789"`. -/
def NUMBERS : List Nat := [48, 49, 50, 51, 52, 53, 54, 55, 56, 57]

/-- The bytes of the 32-symbol string (ASCII 33-47, 58-64, 91-96, 123-126). -/
def SYMBOLS : List Nat :=
  [33, 34, 35, 36, 37, 38, 39, 40, 41, 42, 43, 44, 45, 46, 47, 58, 59, 60, 61, 62, 63, 64,
   91, 92, 93, 94, 95, 96, 123, 124, 125, 126]

/-- `CharacterSet::get_chars`. -/
def get_chars : CharacterSet → List Nat
  | .None => []
  | .Lowercase => LOWERCASE
  | .Uppercase => UPPERCASE
  | .Numbers => NUMBERS
  | .Symbols => SYMBOLS
  | .LowercaseUppercase => LOWERCASE ++ UPPERCASE
  | .LowercaseNumbers => LOWERCASE ++ NUMBERS
  | .LowercaseSymbols => LOWERCASE ++ SYMBOLS
  | .UppercaseNumbers => UPPERCASE ++ NUMBERS
  | .UppercaseSymbols => UPPERCASE ++ SYMBOLS
  | .NumbersSymbols => NUMBERS ++ SYMBOLS
  | .LowercaseUppercaseNumbers => LOWERCASE ++ UPPERCASE ++ NUMBERS
  | .LowercaseUppercaseSymbols => LOWERCASE ++ UPPERCASE ++ SYMBOLS
  | .LowercaseNumbersSymbols => LOWERCASE ++ NUMBERS ++ SYMBOLS
  | .UppercaseNumbersSymbols => UPPERCASE ++ NUMBERS ++ SYMBOLS
  | .LowercaseUppercaseNumbersSymbols => LOWERCASE ++ UPPERCASE ++ NUMBERS ++ SYMBOLS

/-- `CharacterSet::get_charset_count`. -/
def get_charset_count : CharacterSet → Nat
  | .None => 0
  | .Lowercase | .Uppercase | .Numbers | .Symbols => 1
  | .LowercaseUppercase | .LowercaseNumbers | .LowercaseSymbols
  | .UppercaseNumbers | .UppercaseSymbols | .NumbersSymbols => 2
  | .LowercaseUppercaseNumbers | .LowercaseUppercaseSymbols
  | .LowercaseNumbersSymbols | .UppercaseNumbersSymbols => 3
  | .LowercaseUppercaseNumbersSymbols => 4

/-- `CharacterSet::get_serials`. -/
def get_serials : CharacterSet → List Set
  | .None => []
  | .Lowercase => [Set.Lowercase]
  | .Uppercase => [Set.Uppercase]
  | .Numbers => [Set.Numbers]
  | .Symbols => [Set.Symbols]
  | .LowercaseUppercase => [Set.Lowercase, Set.Uppercase]
  | .LowercaseNumbers => [Set.Lowercase, Set.Numbers]
  | .LowercaseSymbols => [Set.Lowercase, Set.Symbols]
  | .UppercaseNumbers => [Set.Uppercase, Set.Numbers]
  | .UppercaseSymbols => [Set.Uppercase, Set.Symbols]
  | .NumbersSymbols => [Set.Numbers, Set.Symbols]
  | .LowercaseUppercaseNumbers => [Set.Lowercase, Set.Uppercase, Set.Numbers]
  | .LowercaseUppercaseSymbols => [Set.Lowercase, Set.Uppercase, Set.Symbols]
  | .LowercaseNumbersSymbols => [Set.Lowercase, Set.Numbers, Set.Symbols]
  | .UppercaseNumbersSymbols => [Set.Uppercase, Set.Numbers, Set.Symbols]
  | .LowercaseUppercaseNumbersSymbols =>
      [Set.Lowercase, Set.Uppercase, Set.Numbers, Set.Symbols]

/-- `CharacterSet::get_serial`. -/
def get_serial : Set → List Nat
  | Set.Lowercase => LOWERCASE
  | Set.Uppercase => UPPERCASE
  | Set.Numbers => NUMBERS
  | Set.Symbols => SYMBOLS

/-- `CharacterSet::serial_len`. -/
def serial_len : Set → Nat
  | Set.Lowercase | Set.Uppercase => LOWERCASE.length
  | Set.Numbers => NUMBERS.length
  | Set.Symbols => SYMBOLS.length

end CharacterSet

/-! ## Settings (`settings.rs`) -/

/-- Mirrors `struct Settings`. -/
structure Settings where
  iterations : Option Nat
  pass_len : Nat
  char_set : CharacterSet
  algorithm : Option Algorithm
  deriving DecidableEq, Repr

/-- `Settings::get_iterations` (default 100 000). -/
def Settings.get_iterations (s : Settings) : Nat := s.iterations.getD 100000

def Settings.get_password_len (s : Settings) : Nat := s.pass_len

def Settings.get_characterset (s : Settings) : CharacterSet := s.char_set

def Settings.get_algorithm (s : Settings) : Option Algorithm := s.algorithm

/-! ## Password assembly (`lib.rs`, `LessPass::password`) -/

/-- The main handle (`struct LessPass`). -/
structure LessPass where
  master : Master
  deriving DecidableEq, Repr

/-- `LessPass::new`. -/
def LessPass.new (master : List Nat) (algorithm : Algorithm) :
    Except LessPassError LessPass :=
  (Master.new master algorithm).map (fun m => ⟨m⟩)

/-- Step 1 of `LessPass::password`: consume `n` indices modulo the pool
size, appending `chars[rem]` each time. -/
def consumeLoop (e : Entropy) (chars : List Nat) : Nat → Entropy × List Nat
  | 0 => (e, [])
  | n + 1 =>
      let er := e.consume chars.length
      let rest := consumeLoop er.1 chars n
      (rest.1, chars.getD er.2 0 :: rest.2)

/-- Step 2 of `LessPass::password`: one character per active charset, in
the order given by `get_serials`. -/
def additionalLoop (e : Entropy) : List Set → Entropy × List Nat
  | [] => (e, [])
  | s :: rest =>
      let er := e.consume (CharacterSet.serial_len s)
      let more := additionalLoop er.1 rest
      (more.1, (CharacterSet.get_serial s).getD er.2 0 :: more.2)

/-- Step 3 of `LessPass::password`: insert each mandatory character at
`rem = consume(password_len)`, where `password_len` starts at the length
of the working buffer and is incremented after each insertion. -/
def insertLoop (e : Entropy) (pwd : List Nat) (password_len : Nat) :
    List Nat → List Nat
  | [] => pwd
  | c :: rest =>
      let er := e.consume password_len
      insertLoop er.1 (pwd.insertIdx er.2 c) (password_len + 1) rest

/-- Steps 1-3 of `LessPass::password` after validation and entropy
derivation. -/
def passwordCore (entropy : Entropy) (settings : Settings) : List Nat :=
  let charset := settings.get_characterset
  let chars := charset.get_chars
  let max_len := settings.get_password_len - charset.get_charset_count
  let step1 := consumeLoop entropy chars max_len
  let step2 := additionalLoop step1.1 charset.get_serials
  insertLoop step2.1 step1.2 step1.2.length step2.2

/-- `LessPass::password` (`lib.rs` lines 261-344): validation in source
order, then PBKDF2-seeded assembly.  The resulting bytes are ASCII, turned
into a `String` exactly as `String::from_utf8` does. -/
def LessPass.password (lp : LessPass) (site login : List Nat) (counter : Nat)
    (settings : Settings) : Except LessPassError String :=
  let algorithm := settings.get_algorithm.getD lp.master.get_algorithm
  if algorithm = Algorithm.SHA1 then
    Except.error LessPassError.UnsupportedAlgorithm
  else if settings.get_password_len < 5 then
    Except.error (LessPassError.PasswordTooShort 5 settings.get_password_len)
  else if (algorithm = Algorithm.SHA512 ∨ algorithm = Algorithm.SHA3_512) ∧
      settings.get_password_len > 70 then
    Except.error (LessPassError.PasswordTooLong 70 settings.get_password_len algorithm)
  else if (algorithm = Algorithm.SHA384 ∨ algorithm = Algorithm.SHA3_384) ∧
      settings.get_password_len > 52 then
    Except.error (LessPassError.PasswordTooLong 52 settings.get_password_len algorithm)
  else if (algorithm = Algorithm.SHA256 ∨ algorithm = Algorithm.SHA3_256) ∧
      settings.get_password_len > 35 then
    Except.error (LessPassError.PasswordTooLong 35 settings.get_password_len algorithm)
  else if settings.get_characterset.get_charset_count = 0 then
    Except.error LessPassError.NoCharsetSelected
  else
    let salt := Entropy.salt site login counter
    let entropy := Entropy.new algorithm lp.master salt settings.get_iterations
    Except.ok (String.mk ((passwordCore entropy settings).map Char.ofNat))

/-! ## Seed cipher (`lib.rs`, `LessPass::secret_otp`) -/

/-- The encryption loop of `secret_otp`: `hash[(start+i) % n] ^= secret[i]`. -/
def encLoopGo (n start : Nat) (i : Nat) (secret hash : List Nat) : List Nat :=
  match secret with
  | [] => hash
  | b :: rest =>
      let pos := (start + i) % n
      encLoopGo n start (i + 1) rest (hash.set pos ((hash.getD pos 0) ^^^ b))

/-- Encrypt branch of `secret_otp`: store the secret length in the last
byte, then XOR the secret into the keystream. -/
def secretEncrypt (hash secret : List Nat) : List Nat :=
  let n := hash.length - 1
  let start := (hash.getD n 0) &&& n
  encLoopGo n start 0 secret (hash.set n ((hash.getD n 0) ^^^ secret.length))

/-- Decrypt branch of `secret_otp`: recover the length from the last byte,
then XOR the keystream back out. -/
def secretDecrypt (hash secret : List Nat) : List Nat :=
  let n := hash.length - 1
  let start := (hash.getD n 0) &&& n
  let pass_length := (secret.getD (secret.length - 1) 0) ^^^ (hash.getD n 0)
  (List.range pass_length).map
    (fun i => (hash.getD ((start + i) % n) 0) ^^^ (secret.getD ((start + i) % n) 0))

/-- `LessPass::secret_otp` (`lib.rs` lines 525-568). -/
def LessPass.secret_otp (lp : LessPass) (prefixBytes site login secret : List Nat) :
    Except LessPassError (List Nat) :=
  if 1 ≤ secret.length ∧ secret.length < 32 then
    let salt := Entropy.salt_byte prefixBytes site login
    Except.ok (secretEncrypt (Algorithm.SHA256.pbkdf2 lp.master.bytes salt 100000) secret)
  else if secret.length = 32 then
    let salt := Entropy.salt_byte prefixBytes site login
    Except.ok (secretDecrypt (Algorithm.SHA256.pbkdf2 lp.master.bytes salt 100000) secret)
  else if 33 ≤ secret.length ∧ secret.length < 64 then
    let salt := Entropy.salt_byte prefixBytes site login
    Except.ok (secretEncrypt (Algorithm.SHA512.pbkdf2 lp.master.bytes salt 100000) secret)
  else if secret.length = 64 then
    let salt := Entropy.salt_byte prefixBytes site login
    Except.ok (secretDecrypt (Algorithm.SHA512.pbkdf2 lp.master.bytes salt 100000) secret)
  else Except.error LessPassError.InvalidLength

/-- The bytes of `"hotp"`. -/
def hotpPrefixBytes : List Nat := [104, 111, 116, 112]

/-- The bytes of `"totp"`. -/
def totpPrefixBytes : List Nat := [116, 111, 116, 112]

/-- `LessPass::secret_hotp`. -/
def LessPass.secret_hotp (lp : LessPass) (site login secret : List Nat) :
    Except LessPassError (List Nat) :=
  lp.secret_otp hotpPrefixBytes site login secret

/-- `LessPass::secret_totp`. -/
def LessPass.secret_totp (lp : LessPass) (site login secret : List Nat) :
    Except LessPassError (List Nat) :=
  lp.secret_otp totpPrefixBytes site login secret

/-! ## Fingerprint (`fingerprint.rs` and `LessPass::get_fingerprint`) -/

/-- The 14-entry color table. -/
def COLORS : List String :=
  ["#000000", "#074750", "#009191", "#FF6CB6", "#FFB5DA", "#490092", "#006CDB", "#B66DFF",
   "#6DB5FE", "#B5DAFE", "#920000", "#924900", "#DB6D00", "#24FE23"]

/-- The 46-entry icon table (`fa-coffee` appears twice, as in the source). -/
def ICONS : List String :=
  ["fa-hashtag", "fa-heart", "fa-hotel", "fa-university", "fa-plug", "fa-ambulance",
   "fa-bus", "fa-car", "fa-plane", "fa-rocket", "fa-ship", "fa-subway", "fa-truck",
   "fa-jpy", "fa-eur", "fa-btc", "fa-usd", "fa-gbp", "fa-archive", "fa-area-chart",
   "fa-bed", "fa-beer", "fa-bell", "fa-binoculars", "fa-birthday-cake", "fa-bomb",
   "fa-briefcase", "fa-bug", "fa-camera", "fa-cart-plus", "fa-certificate", "fa-coffee",
   "fa-cloud", "fa-coffee", "fa-comment", "fa-cube", "fa-cutlery", "fa-database",
   "fa-diamond", "fa-exclamation-circle", "fa-eye", "fa-flag", "fa-flask", "fa-futbol-o",
   "fa-gamepad", "fa-graduation-cap"]

/-- Value of one hex character (as `u64::from_str_radix` radix 16). -/
def hexDigitVal (c : Char) : Nat :=
  if 48 ≤ c.toNat ∧ c.toNat ≤ 57 then c.toNat - 48
  else if 65 ≤ c.toNat ∧ c.toNat ≤ 70 then c.toNat - 55
  else if 97 ≤ c.toNat ∧ c.toNat ≤ 102 then c.toNat - 87
  else 0

/-- `u64::from_str_radix(s, 16)` on a hex string. -/
def parseHex (s : List Char) : Nat := s.foldl (fun acc c => acc * 16 + hexDigitVal c) 0

/-- `fingerprint::get_color`. -/
def get_color (color : List Char) : String := COLORS.getD (parseHex color % COLORS.length) ""

/-- `fingerprint::get_icon`. -/
def get_icon (icon : List Char) : String := ICONS.getD (parseHex icon % ICONS.length) ""

/-- `fingerprint::get_fingerprint`: three 6-character chunks of the hex
string, each mapped to a (color, icon) pair. -/
def Fingerprint.get_fingerprint (fingerprint : List Char) : List (String × String) :=
  let hash1 := fingerprint.take 6
  let hash2 := (fingerprint.drop 6).take 6
  let hash3 := (fingerprint.drop 12).take 6
  [(get_color hash1, get_icon hash1), (get_color hash2, get_icon hash2),
   (get_color hash3, get_icon hash3)]

/-- Uppercase hex digit for a value below 16. -/
def hexUpperDigit (n : Nat) : Char :=
  if n < 10 then Char.ofNat (48 + n) else Char.ofNat (55 + n)

/-- One byte rendered as `format!("{:X}", byte)`: minimal uppercase hex,
a single character for bytes below 16. -/
def byteHexUpper (b : Nat) : List Char :=
  if b < 16 then [hexUpperDigit b] else [hexUpperDigit (b / 16), hexUpperDigit (b % 16)]

/-- `LessPass::get_fingerprint` (`lib.rs` lines 589-600): the HMAC digest
rendered with `{:X}` per byte (no zero padding), then chunked. -/
def LessPass.get_fingerprint (lp : LessPass) (salt : List Nat) : List (String × String) :=
  let finger := lp.master.fingerprint salt
  Fingerprint.get_fingerprint (finger.foldr (fun b acc => byteHexUpper b ++ acc) [])

/-! ## OTP engine (`otp.rs`) -/

/-- Mirrors `struct Otp` in `otp.rs`. -/
structure Otp where
  secret : List Nat
  algorithm : Algorithm
  digits : Nat
  period : Nat
  timestamp : Nat
  deriving DecidableEq, Repr

/-- `Otp::new` (`otp.rs` lines 109-140): algorithm restricted to SHA-1
(default), SHA-256, SHA-512; digits must satisfy `5 < digits < 10`;
`period` defaults to 30 with a minimum of 1; `timestamp` defaults to 0. -/
def Otp.new (secret : List Nat) (digits : Nat) (algorithm : Option Algorithm)
    (period : Option Nat) (timestamp : Option Nat) : Except LessPassError Otp :=
  if algorithm = none ∨ algorithm = some Algorithm.SHA1 ∨
      algorithm = some Algorithm.SHA256 ∨ algorithm = some Algorithm.SHA512 then
    if 5 < digits ∧ digits < 10 then
      Except.ok ⟨secret, algorithm.getD Algorithm.SHA1, digits,
        max (period.getD 30) 1, timestamp.getD 0⟩
    else Except.error LessPassError.InvalidLength
  else Except.error LessPassError.UnsupportedAlgorithm

/-- The HMAC digest computed by `Otp::hotp` for a counter. -/
def Otp.hotpDigest (o : Otp) (counter : Nat) : List Nat :=
  o.algorithm.hmac o.secret (beBytes 8 counter)

/-- The dynamic-truncation offset of `Otp::hotp`: low nibble of the last
digest byte. -/
def Otp.hotpOffset (o : Otp) (counter : Nat) : Nat :=
  let digest := o.hotpDigest counter
  (digest.getD (digest.length - 1) 0) &&& 0xf

/-- Decimal rendering left-padded with zeros (`format!("{:0>1$}", n, w)`). -/
def padDecimal (w : Nat) (n : Nat) : String :=
  let s := Nat.repr n
  String.mk (List.replicate (w - s.length) (Char.ofNat 48) ++ s.data)

/-- `Otp::hotp` (`otp.rs` lines 164-178). -/
def Otp.hotp (o : Otp) (counter : Nat) : String :=
  let digest := o.hotpDigest counter
  let off := o.hotpOffset counter
  let binary :=
    (((digest.getD off 0) &&& 0x7f) <<< 24) |||
    (((digest.getD (off + 1) 0) &&& 0xff) <<< 16) |||
    (((digest.getD (off + 2) 0) &&& 0xff) <<< 8) |||
    ((digest.getD (off + 3) 0) &&& 0xff)
  padDecimal o.digits (binary % (10 ^ o.digits))

/-- `Otp::totp_from_ts` (`otp.rs` lines 157-160): the source computes
`(timestamp - self.timestamp) / period` with an unchecked `u64`
subtraction, which is a panic (overflow) in debug builds when
`timestamp < self.timestamp`; the panic is modelled as `none`. -/
def Otp.totp_from_ts (o : Otp) (timestamp : Nat) : Option String :=
  if o.timestamp ≤ timestamp then
    some (o.hotp ((timestamp - o.timestamp) / o.period))
  else none


/-! ## Definitions written from the specification's words

For refinement claims, a second definition follows the specification text
and is compared with the one translated from the source. -/

/-- Specification step 5 as the claim states it: each mandatory character
is inserted at `pos = entropy.consume(currentLen + 1)`, where `currentLen`
is the current working-buffer length (inclusive upper bound). -/
def insertLoopPlusOne (e : Entropy) (pwd : List Nat) : List Nat → List Nat
  | [] => pwd
  | c :: rest =>
      let er := e.consume (pwd.length + 1)
      insertLoopPlusOne er.1 (pwd.insertIdx er.2 c) rest

/-- Specification step 5 as amended: each mandatory character is inserted
at `pos = entropy.consume(currentLen)`, where `currentLen` is the current
working-buffer length (exclusive upper bound: the character is never
appended past the end). -/
def insertLoopByLen (e : Entropy) (pwd : List Nat) : List Nat → List Nat
  | [] => pwd
  | c :: rest =>
      let er := e.consume pwd.length
      insertLoopByLen er.1 (pwd.insertIdx er.2 c) rest

/-- The assembly pipeline with the claim's `currentLen + 1` insertion
modulus in step 3. -/
def passwordCorePlusOne (entropy : Entropy) (settings : Settings) : List Nat :=
  let charset := settings.get_characterset
  let chars := charset.get_chars
  let max_len := settings.get_password_len - charset.get_charset_count
  let step1 := consumeLoop entropy chars max_len
  let step2 := additionalLoop step1.1 charset.get_serials
  insertLoopPlusOne step2.1 step1.2 step2.2

/-- The assembly pipeline with the amended insertion modulus (the current
working-buffer length) in step 3. -/
def passwordCoreByLen (entropy : Entropy) (settings : Settings) : List Nat :=
  let charset := settings.get_characterset
  let chars := charset.get_chars
  let max_len := settings.get_password_len - charset.get_charset_count
  let step1 := consumeLoop entropy chars max_len
  let step2 := additionalLoop step1.1 charset.get_serials
  insertLoopByLen step2.1 step1.2 step2.2

/-- `LessPass::password` as the claim describes it: identical validation
and steps 1-2, with the mandatory characters inserted at
`entropy.consume(currentLen + 1)`. -/
def LessPass.passwordPlusOne (lp : LessPass) (site login : List Nat) (counter : Nat)
    (settings : Settings) : Except LessPassError String :=
  let algorithm := settings.get_algorithm.getD lp.master.get_algorithm
  if algorithm = Algorithm.SHA1 then
    Except.error LessPassError.UnsupportedAlgorithm
  else if settings.get_password_len < 5 then
    Except.error (LessPassError.PasswordTooShort 5 settings.get_password_len)
  else if (algorithm = Algorithm.SHA512 ∨ algorithm = Algorithm.SHA3_512) ∧
      settings.get_password_len > 70 then
    Except.error (LessPassError.PasswordTooLong 70 settings.get_password_len algorithm)
  else if (algorithm = Algorithm.SHA384 ∨ algorithm = Algorithm.SHA3_384) ∧
      settings.get_password_len > 52 then
    Except.error (LessPassError.PasswordTooLong 52 settings.get_password_len algorithm)
  else if (algorithm = Algorithm.SHA256 ∨ algorithm = Algorithm.SHA3_256) ∧
      settings.get_password_len > 35 then
    Except.error (LessPassError.PasswordTooLong 35 settings.get_password_len algorithm)
  else if settings.get_characterset.get_charset_count = 0 then
    Except.error LessPassError.NoCharsetSelected
  else
    let salt := Entropy.salt site login counter
    let entropy := Entropy.new algorithm lp.master salt settings.get_iterations
    Except.ok (String.mk ((passwordCorePlusOne entropy settings).map Char.ofNat))

/-- `LessPass::password` with the amended step 3: the mandatory characters
are inserted at `entropy.consume(currentLen)`, `currentLen` being the
working-buffer length. -/
def LessPass.passwordByLen (lp : LessPass) (site login : List Nat) (counter : Nat)
    (settings : Settings) : Except LessPassError String :=
  let algorithm := settings.get_algorithm.getD lp.master.get_algorithm
  if algorithm = Algorithm.SHA1 then
    Except.error LessPassError.UnsupportedAlgorithm
  else if settings.get_password_len < 5 then
    Except.error (LessPassError.PasswordTooShort 5 settings.get_password_len)
  else if (algorithm = Algorithm.SHA512 ∨ algorithm = Algorithm.SHA3_512) ∧
      settings.get_password_len > 70 then
    Except.error (LessPassError.PasswordTooLong 70 settings.get_password_len algorithm)
  else if (algorithm = Algorithm.SHA384 ∨ algorithm = Algorithm.SHA3_384) ∧
      settings.get_password_len > 52 then
    Except.error (LessPassError.PasswordTooLong 52 settings.get_password_len algorithm)
  else if (algorithm = Algorithm.SHA256 ∨ algorithm = Algorithm.SHA3_256) ∧
      settings.get_password_len > 35 then
    Except.error (LessPassError.PasswordTooLong 35 settings.get_password_len algorithm)
  else if settings.get_characterset.get_charset_count = 0 then
    Except.error LessPassError.NoCharsetSelected
  else
    let salt := Entropy.salt site login counter
    let entropy := Entropy.new algorithm lp.master salt settings.get_iterations
    Except.ok (String.mk ((passwordCoreByLen entropy settings).map Char.ofNat))

/-- `Otp::hotp` as the specification describes it: HMAC of the big-endian
8-byte counter, offset from the low nibble of the last byte, the four
bytes at the offset combined big-endian with the top bit of the first
masked, reduced modulo `10^digits` and left-padded with zeros. -/
def hotpSpec (o : Otp) (counter : Nat) : String :=
  let digest := o.algorithm.hmac o.secret (beBytes 8 counter)
  let off := (digest.getD (digest.length - 1) 0) &&& 0xf
  let four := [(digest.getD off 0) &&& 0x7f, digest.getD (off + 1) 0,
               digest.getD (off + 2) 0, digest.getD (off + 3) 0]
  padDecimal o.digits (fromBytesBE four % (10 ^ o.digits))

/-- Per-algorithm password-length ceiling from the specification (35 for
the 256-bit digests, 52 for the 384-bit ones, 70 for the 512-bit ones;
SHA-1 has no ceiling because it is rejected outright). -/
def lengthCeiling : Algorithm → Nat
  | .SHA1 => 0
  | .SHA256 | .SHA3_256 => 35
  | .SHA384 | .SHA3_384 => 52
  | .SHA512 | .SHA3_512 => 70

/-- One byte as two uppercase hex characters (zero-padded), the standard
hex rendering the claim describes. -/
def byteHexPad2 (b : Nat) : List Char := [hexUpperDigit (b / 16), hexUpperDigit (b % 16)]

/-- The fingerprint as the claim describes it: the HMAC digest rendered as
a standard (two digits per byte) uppercase hex string, split into three
6-character chunks, each parsed as a 24-bit integer and reduced modulo 14
for the color and 46 for the icon. -/
def fingerprintClaimPadded (lp : LessPass) (salt : List Nat) : List (String × String) :=
  let digest := lp.master.algorithm.hmac lp.master.bytes salt
  let hexStr := (digest.map byteHexPad2).flatten
  let pair := fun (c : List Char) =>
    (COLORS.getD (parseHex c % 14) "", ICONS.getD (parseHex c % 46) "")
  [pair (hexStr.take 6), pair ((hexStr.drop 6).take 6), pair ((hexStr.drop 12).take 6)]

/-- The fingerprint as amended: the digest is rendered with `{:X}` per
byte (no zero padding, so a byte below 16 contributes one character), then
chunked and reduced exactly as the claim describes. -/
def fingerprintAmended (lp : LessPass) (salt : List Nat) : List (String × String) :=
  let digest := lp.master.algorithm.hmac lp.master.bytes salt
  let hexStr := (digest.map byteHexUpper).flatten
  let pair := fun (c : List Char) =>
    (COLORS.getD (parseHex c % 14) "", ICONS.getD (parseHex c % 46) "")
  [pair (hexStr.take 6), pair ((hexStr.drop 6).take 6), pair ((hexStr.drop 12).take 6)]

/-! ## Concrete inputs used by witnesses and counterexamples -/

/-- A `LessPass` handle for the master password `"m"` with SHA-256. -/
def lpM : LessPass := ⟨⟨[109], Algorithm.SHA256⟩⟩

/-- The site `"s"` as bytes. -/
def siteS : List Nat := [115]

/-- The login `"l"` as bytes. -/
def loginL : List Nat := [108]

/-- Settings: 1 iteration, 6 characters, all four charsets, SHA-256. -/
def set6 : Settings :=
  ⟨some 1, 6, CharacterSet.LowercaseUppercaseNumbersSymbols, some Algorithm.SHA256⟩

/-- Settings: 1 iteration, 5 characters, all four charsets, SHA-256. -/
def set5 : Settings :=
  ⟨some 1, 5, CharacterSet.LowercaseUppercaseNumbersSymbols, some Algorithm.SHA256⟩

/-- A `LessPass` handle for the empty master password with SHA-256. -/
def lpEmpty : LessPass := ⟨⟨[], Algorithm.SHA256⟩⟩

/-- The RFC 4226 test secret `"12345678901234567890"` as bytes. -/
def rfcSecret : List Nat :=
  [49, 50, 51, 52, 53, 54, 55, 56, 57, 48, 49, 50, 51, 52, 53, 54, 55, 56, 57, 48]

/-- The `Otp` produced by `Otp::new` with the defaults (SHA-1, 6 digits)
for the RFC 4226 secret. -/
def otpRfc : Otp := ⟨rfcSecret, Algorithm.SHA1, 6, 30, 0⟩

/-- An `Otp` with an epoch offset of 50 seconds, for the TOTP witness. -/
def otpEpoch50 : Otp := ⟨rfcSecret, Algorithm.SHA1, 6, 30, 50⟩


/-! ## Helper lemmas: lengths and byte bounds of the hash layer -/

theorem length_beBytes (w n : Nat) : (beBytes w n).length = w := by
  simp [beBytes]

theorem beBytes_lt {b w n : Nat} (h : b ∈ beBytes w n) : b < 256 := by
  simp only [beBytes, List.mem_map] at h
  obtain ⟨i, _, rfl⟩ := h
  exact Nat.mod_lt _ (by decide)

theorem length_s160Bytes (s : S160) : (s160Bytes s).length = 20 := by
  simp [s160Bytes, length_beBytes]

theorem length_s256Bytes (s : S256) : (s256Bytes s).length = 32 := by
  simp [s256Bytes, length_beBytes]

theorem length_s512Bytes (s : S256) : (s512Bytes s).length = 64 := by
  simp [s512Bytes, length_beBytes]

theorem length_sha1 (msg : List Nat) : (sha1 msg).length = 20 := length_s160Bytes _

theorem length_sha256 (msg : List Nat) : (sha256 msg).length = 32 := length_s256Bytes _

theorem length_sha512 (msg : List Nat) : (sha512 msg).length = 64 := length_s512Bytes _

theorem length_sha384 (msg : List Nat) : (sha384 msg).length = 48 := by
  simp [sha384, List.length_take, length_s512Bytes]

theorem length_keccakRound (l : List Nat) (rc : Nat) : (keccakRound l rc).length = 25 := by
  simp [keccakRound]

theorem length_keccakF (l : List Nat) : (keccakF l).length = 25 := by
  simp only [keccakF, keccakRC, List.foldl]
  exact length_keccakRound _ _

theorem length_foldl_absorb (bs : List (List Nat)) (l : List Nat) (h : l.length = 25) :
    (bs.foldl absorbBlock l).length = 25 := by
  induction bs generalizing l with
  | nil => simpa using h
  | cons b bs ih => exact ih _ (length_keccakF _)

theorem length_bytesOfLanes (lanes : List Nat) : (bytesOfLanes lanes).length = 8 * lanes.length := by
  induction lanes with
  | nil => rfl
  | cons x xs ih =>
      simp only [bytesOfLanes, List.map_cons, List.flatten_cons, List.length_append,
        List.length_reverse, length_beBytes, List.length_cons] at ih ⊢
      omega

theorem length_keccakSponge (rate outLen : Nat) (msg : List Nat) (h : outLen ≤ 200) :
    (keccakSponge rate outLen msg).length = outLen := by
  have h1 : ((chunks rate (sha3Pad rate msg)).foldl absorbBlock (List.replicate 25 0)).length
      = 25 := length_foldl_absorb _ _ (List.length_replicate _ _)
  simp only [keccakSponge, List.length_take, length_bytesOfLanes, h1]
  omega

theorem length_sha3_256 (msg : List Nat) : (sha3_256 msg).length = 32 :=
  length_keccakSponge _ _ _ (by decide)

theorem length_sha3_384 (msg : List Nat) : (sha3_384 msg).length = 48 :=
  length_keccakSponge _ _ _ (by decide)

theorem length_sha3_512 (msg : List Nat) : (sha3_512 msg).length = 64 :=
  length_keccakSponge _ _ _ (by decide)

theorem s160Bytes_lt {b : Nat} (s : S160) (h : b ∈ s160Bytes s) : b < 256 := by
  unfold s160Bytes at h
  rcases List.mem_append.mp h with h | h
  rcases List.mem_append.mp h with h | h
  rcases List.mem_append.mp h with h | h
  rcases List.mem_append.mp h with h | h
  all_goals exact beBytes_lt h

theorem s256Bytes_lt {b : Nat} (s : S256) (h : b ∈ s256Bytes s) : b < 256 := by
  unfold s256Bytes at h
  rcases List.mem_append.mp h with h | h
  rcases List.mem_append.mp h with h | h
  rcases List.mem_append.mp h with h | h
  rcases List.mem_append.mp h with h | h
  rcases List.mem_append.mp h with h | h
  rcases List.mem_append.mp h with h | h
  rcases List.mem_append.mp h with h | h
  all_goals exact beBytes_lt h

theorem s512Bytes_lt {b : Nat} (s : S256) (h : b ∈ s512Bytes s) : b < 256 := by
  unfold s512Bytes at h
  rcases List.mem_append.mp h with h | h
  rcases List.mem_append.mp h with h | h
  rcases List.mem_append.mp h with h | h
  rcases List.mem_append.mp h with h | h
  rcases List.mem_append.mp h with h | h
  rcases List.mem_append.mp h with h | h
  rcases List.mem_append.mp h with h | h
  all_goals exact beBytes_lt h

theorem bytesOfLanes_lt {b : Nat} (lanes : List Nat) (h : b ∈ bytesOfLanes lanes) : b < 256 := by
  simp only [bytesOfLanes, List.mem_flatten, List.mem_map] at h
  obtain ⟨l, ⟨lane, _, rfl⟩, hb⟩ := h
  exact beBytes_lt (List.mem_reverse.mp hb)

theorem hash_lt (a : Algorithm) (msg : List Nat) {b : Nat} (h : b ∈ a.hash msg) : b < 256 := by
  cases a <;> simp only [Algorithm.hash, sha1, sha256, sha384, sha512,
    sha3_256, sha3_384, sha3_512, keccakSponge] at h
  case SHA1 => exact s160Bytes_lt _ h
  case SHA256 => exact s256Bytes_lt _ h
  case SHA384 => exact s512Bytes_lt _ (List.mem_of_mem_take h)
  case SHA512 => exact s512Bytes_lt _ h
  all_goals exact bytesOfLanes_lt _ (List.mem_of_mem_take h)

theorem hmacWith_eq (a : Algorithm) (key msg : List Nat) :
    a.hmac key msg = hmacWith a.hash a.blockSize key msg := rfl

theorem hmac_lt (a : Algorithm) (key msg : List Nat) {b : Nat} (h : b ∈ a.hmac key msg) :
    b < 256 := by
  simp only [Algorithm.hmac, hmacWith] at h
  exact hash_lt a _ h

/-- Digest sizes of the seven algorithms (20/32/48/64/32/48/64 bytes). -/
def digestLength : Algorithm → Nat
  | .SHA1 => 20
  | .SHA256 | .SHA3_256 => 32
  | .SHA384 | .SHA3_384 => 48
  | .SHA512 | .SHA3_512 => 64

theorem length_hash (a : Algorithm) (msg : List Nat) : (a.hash msg).length = digestLength a := by
  cases a
  case SHA1 => exact length_sha1 msg
  case SHA256 => exact length_sha256 msg
  case SHA384 => exact length_sha384 msg
  case SHA512 => exact length_sha512 msg
  case SHA3_256 => exact length_sha3_256 msg
  case SHA3_384 => exact length_sha3_384 msg
  case SHA3_512 => exact length_sha3_512 msg

theorem length_hmac (a : Algorithm) (key msg : List Nat) :
    (a.hmac key msg).length = digestLength a := by
  simp only [Algorithm.hmac, hmacWith]
  exact length_hash a _

theorem length_pbkdf2Go (a : Algorithm) (key : List Nat) (m : Nat) :
    ∀ u acc : List Nat, acc.length = digestLength a →
      (pbkdf2Go a.hash a.blockSize key u acc m).length = digestLength a := by
  induction m with
  | zero => intro u acc h; exact h
  | succ m ih =>
      intro u acc h
      simp only [pbkdf2Go]
      refine ih _ _ ?_
      rw [List.length_zipWith, h, ← hmacWith_eq, length_hmac, Nat.min_self]

theorem length_pbkdf2 (a : Algorithm) (key salt : List Nat) (c : Nat) :
    (a.pbkdf2 key salt c).length = digestLength a := by
  simp only [Algorithm.pbkdf2, pbkdf2With]
  exact length_pbkdf2Go a key _ _ _ (by rw [← hmacWith_eq, length_hmac])

/-! ## Helper lemmas: `getD`, `set` and membership -/

theorem getD_mem {α : Type} (l : List α) (n : Nat) (d : α) (h : n < l.length) :
    l.getD n d ∈ l := by
  rw [List.getD_eq_getElem?_getD, List.getElem?_eq_getElem h]
  exact List.getElem_mem h

theorem hmac_getD_lt (a : Algorithm) (key msg : List Nat) (i : Nat) :
    (a.hmac key msg).getD i 0 < 256 := by
  by_cases hi : i < (a.hmac key msg).length
  · exact hmac_lt a key msg (getD_mem _ _ _ hi)
  · rw [List.getD_eq_default _ _ (Nat.le_of_not_lt hi)]
    decide

theorem set_getD_self {l : List Nat} {i : Nat} {a : Nat} (h : i < l.length) :
    (l.set i a).getD i 0 = a := by
  rw [List.getD_eq_getElem?_getD, List.getElem?_set_self h]
  rfl

theorem set_getD_ne {l : List Nat} {i j : Nat} {a : Nat} (h : i ≠ j) :
    (l.set i a).getD j 0 = l.getD j 0 := by
  rw [List.getD_eq_getElem?_getD, List.getElem?_set_ne h, ← List.getD_eq_getElem?_getD]

theorem range_map_getD (l : List Nat) :
    (List.range l.length).map (fun i => l.getD i 0) = l := by
  induction l with
  | nil => rfl
  | cons x xs ih =>
      rw [List.length_cons, List.range_succ_eq_map, List.map_cons, List.map_map]
      simp only [List.getD]
      exact congrArg (x :: ·) ih


/-! ## Helper lemmas: the charset model -/

theorem serials_length (cs : CharacterSet) :
    cs.get_serials.length = cs.get_charset_count := by
  cases cs <;> rfl

theorem count_le_four (cs : CharacterSet) : cs.get_charset_count ≤ 4 := by
  cases cs <;> decide

theorem serial_len_eq (st : Set) :
    CharacterSet.serial_len st = (CharacterSet.get_serial st).length := by
  cases st <;> decide

theorem serial_len_pos (st : Set) : 0 < CharacterSet.serial_len st := by
  cases st <;> decide

/-! ## Helper lemmas: the assembly loops -/

theorem consumeLoop_length (chars : List Nat) :
    ∀ (n : Nat) (e : Entropy), (consumeLoop e chars n).2.length = n := by
  intro n
  induction n with
  | zero => intro e; rfl
  | succ n ih => intro e; simp only [consumeLoop, List.length_cons, ih]

theorem additionalLoop_length :
    ∀ (ss : List Set) (e : Entropy), (additionalLoop e ss).2.length = ss.length := by
  intro ss
  induction ss with
  | nil => intro e; rfl
  | cons s rest ih => intro e; simp only [additionalLoop, List.length_cons, ih]

theorem additionalLoop_mem :
    ∀ (ss : List Set) (e : Entropy) (st : Set), st ∈ ss →
      ∃ c, c ∈ (additionalLoop e ss).2 ∧ c ∈ CharacterSet.get_serial st := by
  intro ss
  induction ss with
  | nil => intro e st h; cases h
  | cons s0 rest ih =>
      intro e st h
      rcases List.mem_cons.mp h with rfl | h
      · refine ⟨(CharacterSet.get_serial st).getD (e.consume (CharacterSet.serial_len st)).2 0,
          List.mem_cons_self _ _, ?_⟩
        refine getD_mem _ _ _ ?_
        rw [← serial_len_eq]
        exact Nat.mod_lt _ (serial_len_pos st)
      · obtain ⟨c, hc1, hc2⟩ := ih (e.consume (CharacterSet.serial_len s0)).1 st h
        exact ⟨c, List.mem_cons_of_mem _ hc1, hc2⟩

theorem insertLoop_eq_byLen :
    ∀ (adds : List Nat) (e : Entropy) (pwd : List Nat), 1 ≤ pwd.length →
      insertLoop e pwd pwd.length adds = insertLoopByLen e pwd adds := by
  intro adds
  induction adds with
  | nil => intro e pwd h; rfl
  | cons c rest ih =>
      intro e pwd h
      simp only [insertLoop, insertLoopByLen]
      have hrem : (e.consume pwd.length).2 < pwd.length := Nat.mod_lt _ h
      have hlen : (pwd.insertIdx (e.consume pwd.length).2 c).length = pwd.length + 1 :=
        List.length_insertIdx _ _ (Nat.le_of_lt hrem)
      rw [← hlen]
      exact ih _ _ (by rw [hlen]; omega)

theorem insertLoop_length :
    ∀ (adds : List Nat) (e : Entropy) (pwd : List Nat), 1 ≤ pwd.length →
      (insertLoop e pwd pwd.length adds).length = pwd.length + adds.length := by
  intro adds
  induction adds with
  | nil => intro e pwd h; rfl
  | cons c rest ih =>
      intro e pwd h
      simp only [insertLoop]
      have hrem : (e.consume pwd.length).2 < pwd.length := Nat.mod_lt _ h
      have hlen : (pwd.insertIdx (e.consume pwd.length).2 c).length = pwd.length + 1 :=
        List.length_insertIdx _ _ (Nat.le_of_lt hrem)
      rw [← hlen, ih _ _ (by rw [hlen]; omega), hlen, List.length_cons]
      omega

theorem insertLoop_mem :
    ∀ (adds : List Nat) (e : Entropy) (pwd : List Nat), 1 ≤ pwd.length →
      ∀ x, (x ∈ pwd ∨ x ∈ adds) → x ∈ insertLoop e pwd pwd.length adds := by
  intro adds
  induction adds with
  | nil =>
      intro e pwd h x hx
      rcases hx with hx | hx
      · exact hx
      · cases hx
  | cons c rest ih =>
      intro e pwd h x hx
      simp only [insertLoop]
      have hrem : (e.consume pwd.length).2 < pwd.length := Nat.mod_lt _ h
      have hle : (e.consume pwd.length).2 ≤ pwd.length := Nat.le_of_lt hrem
      have hlen : (pwd.insertIdx (e.consume pwd.length).2 c).length = pwd.length + 1 :=
        List.length_insertIdx _ _ hle
      rw [← hlen]
      refine ih _ _ (by rw [hlen]; omega) x ?_
      rcases hx with hx | hx
      · exact Or.inl ((List.mem_insertIdx hle).mpr (Or.inr hx))
      · rcases List.mem_cons.mp hx with rfl | hx
        · exact Or.inl ((List.mem_insertIdx hle).mpr (Or.inl rfl))
        · exact Or.inr hx

/-! ## Helper lemmas: the assembled password -/

theorem passwordCore_eq_byLen (e : Entropy) (settings : Settings)
    (h5 : 5 ≤ settings.get_password_len) :
    passwordCore e settings = passwordCoreByLen e settings := by
  simp only [passwordCore, passwordCoreByLen]
  apply insertLoop_eq_byLen
  rw [consumeLoop_length]
  have := count_le_four settings.get_characterset
  omega

theorem passwordCore_length (e : Entropy) (settings : Settings)
    (h5 : 5 ≤ settings.get_password_len) :
    (passwordCore e settings).length = settings.get_password_len := by
  simp only [passwordCore]
  have hc4 := count_le_four settings.get_characterset
  have hbase : 1 ≤ (consumeLoop e settings.get_characterset.get_chars
      (settings.get_password_len - settings.get_characterset.get_charset_count)).2.length := by
    rw [consumeLoop_length]; omega
  rw [insertLoop_length _ _ _ hbase, consumeLoop_length, additionalLoop_length, serials_length]
  omega

theorem passwordCore_coverage (e : Entropy) (settings : Settings)
    (h5 : 5 ≤ settings.get_password_len) :
    ∀ st ∈ settings.get_characterset.get_serials,
      ∃ b, b ∈ passwordCore e settings ∧ b ∈ CharacterSet.get_serial st := by
  intro st hst
  simp only [passwordCore]
  have hc4 := count_le_four settings.get_characterset
  have hbase : 1 ≤ (consumeLoop e settings.get_characterset.get_chars
      (settings.get_password_len - settings.get_characterset.get_charset_count)).2.length := by
    rw [consumeLoop_length]; omega
  obtain ⟨b, hb1, hb2⟩ := additionalLoop_mem settings.get_characterset.get_serials
    (consumeLoop e settings.get_characterset.get_chars
      (settings.get_password_len - settings.get_characterset.get_charset_count)).1 st hst
  exact ⟨b, insertLoop_mem _ _ _ hbase b (Or.inr hb1), hb2⟩


/-- Decidable equality on `Except`, used to evaluate results on concrete
inputs. -/
instance instDecEqExcept {e a : Type} [DecidableEq e] [DecidableEq a] :
    DecidableEq (Except e a)
  | .error x, .error y =>
      if h : x = y then .isTrue (congrArg Except.error h)
      else .isFalse (fun he => h (by injection he))
  | .error _, .ok _ => .isFalse (fun he => Except.noConfusion he)
  | .ok _, .error _ => .isFalse (fun he => Except.noConfusion he)
  | .ok x, .ok y =>
      if h : x = y then .isTrue (congrArg Except.ok h)
      else .isFalse (fun he => h (by injection he))

/-! ## Claim C1: the insertion modulus of the mandatory characters -/

set_option maxRecDepth 100000 in
/-- C1 (claim as stated, refuted): with master `"m"`, site `"s"`, login
`"l"`, counter 1 and settings (1 iteration, 6 characters, all four
charsets, SHA-256), inserting the mandatory characters at
`entropy.consume(currentLen + 1)` does **not** reproduce
`LessPass::password`: the source consumes with modulus `currentLen`. -/
theorem c1_counterexample :
    lpM.password siteS loginL 1 set6 ≠ lpM.passwordPlusOne siteS loginL 1 set6 := by
  decide

/-- C1 (amended): in `LessPass::password`, after the base characters are
produced, each mandatory character (in the fixed order lowercase,
uppercase, number, symbol) is inserted at
`pos = entropy.consume(currentLen)`, where `currentLen` is the current
working-buffer length, starting at `baseLen = targetLength - k` and
growing by 1 per insertion.  The modulus is exclusive: `pos` ranges over
`[0, currentLen)`, so the character is never appended past the end.
Formally, the source function equals the pipeline whose step 3 consumes
with the working-buffer length as modulus, for every input. -/
theorem c1_insertion_modulus (lp : LessPass) (site login : List Nat) (counter : Nat)
    (settings : Settings) :
    lp.password site login counter settings = lp.passwordByLen site login counter settings := by
  simp only [LessPass.password, LessPass.passwordByLen]
  split_ifs with h1 h2 h3 h4 h5 h6
  any_goals rfl
  rw [passwordCore_eq_byLen _ _ (Nat.le_of_not_lt h2)]

/-! ## Claim C4: the output length equals the requested length -/

/-- C4: every successfully derived password has exactly the requested
target length: the working buffer holds `targetLength - k` base characters
plus `k` inserted mandatory characters, `k` being the number of active
charset flags. -/
theorem c4_password_length (lp : LessPass) (site login : List Nat) (counter : Nat)
    (settings : Settings) (p : String)
    (h : lp.password site login counter settings = Except.ok p) :
    p.length = settings.get_password_len := by
  simp only [LessPass.password] at h
  split_ifs at h with h1 h2 h3 h4 h5 h6
  injection h with h
  have hl : ∀ (l : List Char), (String.mk l).length = l.length := fun l => rfl
  rw [← h, hl, List.length_map]
  exact passwordCore_length _ _ (Nat.le_of_not_lt h2)

set_option maxRecDepth 100000 in
/-- C4 witness: with master `"m"`, site `"s"`, login `"l"`, counter 1 and
settings (1 iteration, 5 characters, all four charsets, SHA-256), the
derived password is `"T3u!="`, of length 5. -/
theorem c4_password_length_witness : ("T3u!=" : String).length = set5.get_password_len :=
  c4_password_length lpM siteS loginL 1 set5 "T3u!=" (by decide)

/-! ## Claim C3: charset coverage of the derived password -/

/-- C3: for every successfully derived password and every charset flag
active in the request's `CharacterSet`, at least one character of that
flag's fixed alphabet appears in the output string; the mandatory
characters produced in step 2 are drawn from the flag's alphabet and
inserted in step 3, deterministically and without retry. -/
theorem c3_charset_coverage (lp : LessPass) (site login : List Nat) (counter : Nat)
    (settings : Settings) (p : String)
    (h : lp.password site login counter settings = Except.ok p) :
    ∀ st ∈ settings.get_characterset.get_serials,
      ∃ c, c ∈ p.data ∧ c ∈ (CharacterSet.get_serial st).map Char.ofNat := by
  intro st hst
  simp only [LessPass.password] at h
  split_ifs at h with h1 h2 h3 h4 h5 h6
  injection h with h
  obtain ⟨b, hb1, hb2⟩ :=
    passwordCore_coverage (Entropy.new (settings.get_algorithm.getD lp.master.get_algorithm)
      lp.master (Entropy.salt site login counter) settings.get_iterations) settings
      (Nat.le_of_not_lt h2) st hst
  refine ⟨Char.ofNat b, ?_, List.mem_map_of_mem _ hb2⟩
  rw [← h]
  exact List.mem_map_of_mem _ hb1

set_option maxRecDepth 100000 in
/-- C3 witness: in the concrete derivation of `"T3u!="` (master `"m"`,
site `"s"`, login `"l"`, counter 1, 1 iteration, 5 characters, all four
charsets, SHA-256), the lowercase flag is covered. -/
theorem c3_charset_coverage_witness :
    ∃ c, c ∈ ("T3u!=" : String).data ∧
      c ∈ (CharacterSet.get_serial Set.Lowercase).map Char.ofNat :=
  c3_charset_coverage lpM siteS loginL 1 set5 "T3u!=" (by decide) Set.Lowercase (by decide)


/-! ## Claim C5: validation order of `LessPass::password` -/

/-- Settings (16 characters, all charsets) overriding the algorithm to SHA-1. -/
def setSha1 : Settings :=
  ⟨none, 16, CharacterSet.LowercaseUppercaseNumbersSymbols, some Algorithm.SHA1⟩

/-- Settings requesting a 4-character password. -/
def set4 : Settings :=
  ⟨none, 4, CharacterSet.LowercaseUppercaseNumbersSymbols, some Algorithm.SHA256⟩

/-- Settings requesting a 99-character password with SHA-256. -/
def set99s256 : Settings :=
  ⟨none, 99, CharacterSet.LowercaseUppercaseNumbersSymbols, some Algorithm.SHA256⟩

/-- Settings requesting a 99-character password with SHA-384. -/
def set99s384 : Settings :=
  ⟨none, 99, CharacterSet.LowercaseUppercaseNumbersSymbols, some Algorithm.SHA384⟩

/-- Settings requesting a 99-character password with SHA-512. -/
def set99s512 : Settings :=
  ⟨none, 99, CharacterSet.LowercaseUppercaseNumbersSymbols, some Algorithm.SHA512⟩

/-- Settings with no active charset flag. -/
def setNoCharset : Settings := ⟨none, 16, CharacterSet.None, some Algorithm.SHA256⟩

/-- C5: `LessPass::password` validates in a fixed order with the first
failure winning: (1) effective algorithm SHA-1 (regardless of any other
setting) gives `UnsupportedAlgorithm`; (2) otherwise a target length
below 5 gives `PasswordTooShort(5, length)`; (3) otherwise a length above
the per-algorithm ceiling (70 for the 512-bit digests, 52 for the 384-bit
ones, 35 for the 256-bit ones) gives
`PasswordTooLong(ceiling, length, algorithm)`; (4) otherwise zero active
charset flags gives `NoCharsetSelected`.  All conjuncts hold for every
master, site, login, counter and iteration count, so the errors are
returned before any PBKDF2 work depends on those inputs. -/
theorem c5_validation_order :
    (∀ (lp : LessPass) (site login : List Nat) (counter : Nat) (settings : Settings),
      settings.get_algorithm.getD lp.master.get_algorithm = Algorithm.SHA1 →
      lp.password site login counter settings =
        Except.error LessPassError.UnsupportedAlgorithm) ∧
    (∀ (lp : LessPass) (site login : List Nat) (counter : Nat) (settings : Settings),
      settings.get_algorithm.getD lp.master.get_algorithm ≠ Algorithm.SHA1 →
      settings.get_password_len < 5 →
      lp.password site login counter settings =
        Except.error (LessPassError.PasswordTooShort 5 settings.get_password_len)) ∧
    (∀ (lp : LessPass) (site login : List Nat) (counter : Nat) (settings : Settings),
      (settings.get_algorithm.getD lp.master.get_algorithm = Algorithm.SHA512 ∨
        settings.get_algorithm.getD lp.master.get_algorithm = Algorithm.SHA3_512) →
      ¬settings.get_password_len < 5 → settings.get_password_len > 70 →
      lp.password site login counter settings =
        Except.error (LessPassError.PasswordTooLong 70 settings.get_password_len
          (settings.get_algorithm.getD lp.master.get_algorithm))) ∧
    (∀ (lp : LessPass) (site login : List Nat) (counter : Nat) (settings : Settings),
      (settings.get_algorithm.getD lp.master.get_algorithm = Algorithm.SHA384 ∨
        settings.get_algorithm.getD lp.master.get_algorithm = Algorithm.SHA3_384) →
      ¬settings.get_password_len < 5 → settings.get_password_len > 52 →
      lp.password site login counter settings =
        Except.error (LessPassError.PasswordTooLong 52 settings.get_password_len
          (settings.get_algorithm.getD lp.master.get_algorithm))) ∧
    (∀ (lp : LessPass) (site login : List Nat) (counter : Nat) (settings : Settings),
      (settings.get_algorithm.getD lp.master.get_algorithm = Algorithm.SHA256 ∨
        settings.get_algorithm.getD lp.master.get_algorithm = Algorithm.SHA3_256) →
      ¬settings.get_password_len < 5 → settings.get_password_len > 35 →
      lp.password site login counter settings =
        Except.error (LessPassError.PasswordTooLong 35 settings.get_password_len
          (settings.get_algorithm.getD lp.master.get_algorithm))) ∧
    (∀ (lp : LessPass) (site login : List Nat) (counter : Nat) (settings : Settings),
      settings.get_algorithm.getD lp.master.get_algorithm ≠ Algorithm.SHA1 →
      5 ≤ settings.get_password_len →
      settings.get_password_len ≤
        lengthCeiling (settings.get_algorithm.getD lp.master.get_algorithm) →
      settings.get_characterset.get_charset_count = 0 →
      lp.password site login counter settings =
        Except.error LessPassError.NoCharsetSelected) := by
  refine ⟨?_, ?_, ?_, ?_, ?_, ?_⟩
  · intro lp site login counter settings h
    simp only [LessPass.password]
    rw [if_pos h]
  · intro lp site login counter settings h1 h2
    simp only [LessPass.password]
    rw [if_neg h1, if_pos h2]
  · intro lp site login counter settings h1 h2 h3
    simp only [LessPass.password]
    rcases h1 with h1 | h1 <;> rw [h1] <;>
      rw [if_neg (by decide), if_neg h2, if_pos ⟨by simp, h3⟩]
  · intro lp site login counter settings h1 h2 h3
    simp only [LessPass.password]
    rcases h1 with h1 | h1 <;> rw [h1] <;>
      rw [if_neg (by decide), if_neg h2, if_neg (by rintro ⟨h | h, _⟩ <;> cases h),
        if_pos ⟨by simp, h3⟩]
  · intro lp site login counter settings h1 h2 h3
    simp only [LessPass.password]
    rcases h1 with h1 | h1 <;> rw [h1] <;>
      rw [if_neg (by decide), if_neg h2, if_neg (by rintro ⟨h | h, _⟩ <;> cases h),
        if_neg (by rintro ⟨h | h, _⟩ <;> cases h), if_pos ⟨by simp, h3⟩]
  · intro lp site login counter settings h1 h2 h3 h4
    simp only [LessPass.password]
    rw [if_neg h1, if_neg (by omega)]
    rw [if_neg (by rintro ⟨h | h, hgt⟩ <;> rw [h] at h3 <;> simp [lengthCeiling] at h3 <;> omega),
      if_neg (by rintro ⟨h | h, hgt⟩ <;> rw [h] at h3 <;> simp [lengthCeiling] at h3 <;> omega),
      if_neg (by rintro ⟨h | h, hgt⟩ <;> rw [h] at h3 <;> simp [lengthCeiling] at h3 <;> omega),
      if_pos h4]

/-- C5 witness: the four validation errors on concrete inputs, in each
case produced by the corresponding conjunct of the validation theorem. -/
theorem c5_validation_order_witness :
    lpM.password siteS loginL 1 setSha1 =
        Except.error LessPassError.UnsupportedAlgorithm ∧
    lpM.password siteS loginL 1 set4 =
        Except.error (LessPassError.PasswordTooShort 5 4) ∧
    lpM.password siteS loginL 1 set99s512 =
        Except.error (LessPassError.PasswordTooLong 70 99 Algorithm.SHA512) ∧
    lpM.password siteS loginL 1 set99s384 =
        Except.error (LessPassError.PasswordTooLong 52 99 Algorithm.SHA384) ∧
    lpM.password siteS loginL 1 set99s256 =
        Except.error (LessPassError.PasswordTooLong 35 99 Algorithm.SHA256) ∧
    lpM.password siteS loginL 1 setNoCharset =
        Except.error LessPassError.NoCharsetSelected :=
  ⟨c5_validation_order.1 lpM siteS loginL 1 setSha1 (by decide),
   c5_validation_order.2.1 lpM siteS loginL 1 set4 (by decide) (by decide),
   c5_validation_order.2.2.1 lpM siteS loginL 1 set99s512 (by decide) (by decide) (by decide),
   c5_validation_order.2.2.2.1 lpM siteS loginL 1 set99s384 (by decide) (by decide) (by decide),
   c5_validation_order.2.2.2.2.1 lpM siteS loginL 1 set99s256 (by decide) (by decide) (by decide),
   c5_validation_order.2.2.2.2.2 lpM siteS loginL 1 setNoCharset (by decide) (by decide)
     (by decide) (by decide)⟩

/-! ## Claim C10: `totp_from_ts` under an epoch offset -/

/-- C10: `Otp::totp_from_ts` is only defined for timestamps at or after
the configured epoch offset: the counter is the unchecked `u64`
subtraction `(timestamp - epoch_offset) / period`, so the call underflows
(a panic in debug builds, modelled as `none`) for every smaller timestamp
instead of returning an error; at or after the offset it returns the HOTP
of the elapsed whole periods. -/
theorem c10_totp_epoch_underflow (o : Otp) (ts : Nat) :
    ((o.totp_from_ts ts).isSome ↔ o.timestamp ≤ ts) ∧
    (o.timestamp ≤ ts →
      o.totp_from_ts ts = some (o.hotp ((ts - o.timestamp) / o.period))) := by
  constructor
  · unfold Otp.totp_from_ts
    split_ifs with h <;> simp [h]
  · intro h
    unfold Otp.totp_from_ts
    rw [if_pos h]

/-- C10 witness: with an epoch offset of 50 seconds and a period of 30
seconds, the token at timestamp 80 is defined and is the HOTP of
counter `(80 - 50) / 30`. -/
theorem c10_totp_epoch_underflow_witness :
    otpEpoch50.totp_from_ts 80 =
      some (otpEpoch50.hotp ((80 - otpEpoch50.timestamp) / otpEpoch50.period)) :=
  (c10_totp_epoch_underflow otpEpoch50 80).2 (by decide)


/-! ## Helper lemmas: the seed cipher -/

theorem mod_add_ne {n d : Nat} (s : Nat) (h0 : 0 < d) (hd : d < n) :
    s % n ≠ (s + d) % n := by
  intro h
  have hme : Nat.ModEq n (s + 0) (s + d) := by
    show (s + 0) % n = (s + d) % n
    simpa using h
  have h2 : (0 : Nat) % n = d % n := Nat.ModEq.add_left_cancel' s hme
  rw [Nat.zero_mod, Nat.mod_eq_of_lt hd] at h2
  omega

theorem mod_pos_ne {n : Nat} (s i j : Nat) (hij : i < j) (hjn : j - i < n) :
    (s + i) % n ≠ (s + j) % n := by
  have hj : s + j = (s + i) + (j - i) := by omega
  rw [hj]
  exact mod_add_ne (s + i) (by omega) hjn

theorem encLoopGo_length (n start : Nat) :
    ∀ (secret : List Nat) (i : Nat) (hash : List Nat),
      (encLoopGo n start i secret hash).length = hash.length := by
  intro secret
  induction secret with
  | nil => intro i hash; rfl
  | cons b rest ih =>
      intro i hash
      simp only [encLoopGo]
      rw [ih, List.length_set]

theorem encLoopGo_getD_notin (n start : Nat) :
    ∀ (secret : List Nat) (i : Nat) (hash : List Nat) (p : Nat),
      (∀ j, j < secret.length → p ≠ (start + i + j) % n) →
      (encLoopGo n start i secret hash).getD p 0 = hash.getD p 0 := by
  intro secret
  induction secret with
  | nil => intro i hash p _; rfl
  | cons b rest ih =>
      intro i hash p h
      have h0 : p ≠ (start + i) % n := by
        have := h 0 (by simp)
        simpa using this
      simp only [encLoopGo]
      rw [ih (i + 1) _ p (fun j hj => by
        have hsucc := h (j + 1) (by simpa using Nat.succ_lt_succ hj)
        have harith : start + i + (j + 1) = start + (i + 1) + j := by omega
        rwa [harith] at hsucc)]
      exact set_getD_ne (Ne.symm h0)

theorem encLoopGo_getD_touched (n start : Nat) :
    ∀ (secret : List Nat) (i : Nat) (hash : List Nat) (j : Nat),
      j < secret.length → secret.length ≤ n → n < hash.length →
      (encLoopGo n start i secret hash).getD ((start + i + j) % n) 0 =
        hash.getD ((start + i + j) % n) 0 ^^^ secret.getD j 0 := by
  intro secret
  induction secret with
  | nil => intro i hash j hj _ _; exact absurd hj (by simp)
  | cons b rest ih =>
      intro i hash j hj hn hh
      have hn0 : 0 < n := by
        have : rest.length + 1 ≤ n := by simpa using hn
        omega
      cases j with
      | zero =>
          simp only [encLoopGo, Nat.add_zero]
          rw [encLoopGo_getD_notin n start rest (i + 1) _ ((start + i) % n)
            (fun j' hj' => by
              have harith : start + (i + 1) + j' = start + (i + (1 + j')) := by omega
              rw [harith]
              refine mod_pos_ne start i (i + (1 + j')) (by omega) ?_
              have : rest.length + 1 ≤ n := by simpa using hn
              omega)]
          have hpos : (start + i) % n < hash.length := Nat.lt_trans (Nat.mod_lt _ hn0) hh
          rw [set_getD_self hpos]
          rfl
      | succ j' =>
          simp only [encLoopGo]
          have harith : start + i + (j' + 1) = start + (i + 1) + j' := by omega
          rw [harith, ih (i + 1) _ j' (by simpa using hj) (by simp at hn; omega)
            (by rw [List.length_set]; exact hh)]
          have hne : (start + i) % n ≠ (start + (i + 1) + j') % n := by
            have harith2 : start + (i + 1) + j' = start + (i + (1 + j')) := by omega
            rw [harith2]
            refine mod_pos_ne start i (i + (1 + j')) (by omega) ?_
            have : rest.length + 1 ≤ n := by simpa using hn
            omega
          rw [set_getD_ne hne]
          rfl

theorem length_secretEncrypt (hash secret : List Nat) :
    (secretEncrypt hash secret).length = hash.length := by
  simp only [secretEncrypt]
  rw [encLoopGo_length, List.length_set]

theorem secret_roundtrip (hash secret : List Nat) (hh2 : 2 ≤ hash.length)
    (hs1 : 1 ≤ secret.length) (hs2 : secret.length ≤ hash.length - 1) :
    secretDecrypt hash (secretEncrypt hash secret) = secret := by
  simp only [secretEncrypt, secretDecrypt]
  set n := hash.length - 1 with hn
  set start := hash.getD n 0 &&& n with hstart
  set inner := hash.set n ((hash.getD n 0) ^^^ secret.length) with hinner
  set enc := encLoopGo n start 0 secret inner with henc
  have hn0 : 0 < n := by omega
  have hnh : n < hash.length := by omega
  have hlen : enc.length = hash.length := by
    rw [henc, encLoopGo_length, hinner, List.length_set]
  have hencn : enc.getD (enc.length - 1) 0 = hash.getD n 0 ^^^ secret.length := by
    rw [hlen, ← hn, henc]
    rw [encLoopGo_getD_notin n start secret 0 inner n
      (fun j hj => Nat.ne_of_gt (Nat.mod_lt _ hn0))]
    rw [hinner, set_getD_self hnh]
  rw [hencn, Nat.xor_comm (hash.getD n 0) secret.length, Nat.xor_cancel_right]
  have hmap : ∀ i ∈ List.range secret.length,
      hash.getD ((start + i) % n) 0 ^^^ enc.getD ((start + i) % n) 0 = secret.getD i 0 := by
    intro i hi
    have hi2 : i < secret.length := List.mem_range.mp hi
    have htouch : enc.getD ((start + i) % n) 0 =
        inner.getD ((start + i) % n) 0 ^^^ secret.getD i 0 := by
      have harith : start + i = start + 0 + i := by omega
      rw [henc, harith]
      exact encLoopGo_getD_touched n start secret 0 inner i hi2 (by omega)
        (by rw [hinner, List.length_set]; exact hnh)
    have hinn : inner.getD ((start + i) % n) 0 = hash.getD ((start + i) % n) 0 := by
      rw [hinner]
      exact set_getD_ne (Nat.ne_of_gt (Nat.mod_lt _ hn0))
    rw [htouch, hinn, ← Nat.xor_assoc, Nat.xor_self, Nat.zero_xor]
  rw [List.map_congr_left hmap, range_map_getD]

/-! ## Claim C7: length classification of the seed cipher -/

/-- C7: `LessPass::secret_otp` classifies purely by input length: 1-31
bytes encrypt with the SHA-256 keystream into exactly 32 bytes; exactly 32
bytes decrypt with that keystream; 33-63 bytes encrypt with the SHA-512
keystream into exactly 64 bytes; exactly 64 bytes decrypt with that
keystream; a 0-byte or more-than-64-byte input gives `InvalidLength`
(`secret_hotp` and `secret_totp` dispatch into this transform). -/
theorem c7_length_classification (lp : LessPass) (prefixBytes site login secret : List Nat) :
    (1 ≤ secret.length → secret.length < 32 →
      lp.secret_otp prefixBytes site login secret =
        Except.ok (secretEncrypt (Algorithm.SHA256.pbkdf2 lp.master.bytes
          (Entropy.salt_byte prefixBytes site login) 100000) secret) ∧
      (secretEncrypt (Algorithm.SHA256.pbkdf2 lp.master.bytes
        (Entropy.salt_byte prefixBytes site login) 100000) secret).length = 32) ∧
    (secret.length = 32 →
      lp.secret_otp prefixBytes site login secret =
        Except.ok (secretDecrypt (Algorithm.SHA256.pbkdf2 lp.master.bytes
          (Entropy.salt_byte prefixBytes site login) 100000) secret)) ∧
    (33 ≤ secret.length → secret.length < 64 →
      lp.secret_otp prefixBytes site login secret =
        Except.ok (secretEncrypt (Algorithm.SHA512.pbkdf2 lp.master.bytes
          (Entropy.salt_byte prefixBytes site login) 100000) secret) ∧
      (secretEncrypt (Algorithm.SHA512.pbkdf2 lp.master.bytes
        (Entropy.salt_byte prefixBytes site login) 100000) secret).length = 64) ∧
    (secret.length = 64 →
      lp.secret_otp prefixBytes site login secret =
        Except.ok (secretDecrypt (Algorithm.SHA512.pbkdf2 lp.master.bytes
          (Entropy.salt_byte prefixBytes site login) 100000) secret)) ∧
    (secret.length = 0 ∨ 64 < secret.length →
      lp.secret_otp prefixBytes site login secret =
        Except.error LessPassError.InvalidLength) := by
  refine ⟨?_, ?_, ?_, ?_, ?_⟩
  · intro h1 h2
    constructor
    · simp only [LessPass.secret_otp]
      rw [if_pos ⟨h1, h2⟩]
    · rw [length_secretEncrypt, length_pbkdf2]
      rfl
  · intro h1
    simp only [LessPass.secret_otp]
    rw [if_neg (by omega), if_pos h1]
  · intro h1 h2
    constructor
    · simp only [LessPass.secret_otp]
      rw [if_neg (by omega), if_neg (by omega), if_pos ⟨h1, h2⟩]
    · rw [length_secretEncrypt, length_pbkdf2]
      rfl
  · intro h1
    simp only [LessPass.secret_otp]
    rw [if_neg (by omega), if_neg (by omega), if_neg (by omega), if_pos h1]
  · intro h1
    simp only [LessPass.secret_otp]
    rw [if_neg (by omega), if_neg (by omega), if_neg (by omega), if_neg (by omega)]

/-- C7 witness: concrete instances of all five classification branches:
a 3-byte seed encrypts to 32 bytes, a 32-byte input decrypts, a 40-byte
seed encrypts to 64 bytes, a 64-byte input decrypts, and the empty and
65-byte inputs are rejected. -/
theorem c7_length_classification_witness :
    (lpM.secret_otp hotpPrefixBytes siteS loginL [1, 2, 3] =
        Except.ok (secretEncrypt (Algorithm.SHA256.pbkdf2 lpM.master.bytes
          (Entropy.salt_byte hotpPrefixBytes siteS loginL) 100000) [1, 2, 3]) ∧
      (secretEncrypt (Algorithm.SHA256.pbkdf2 lpM.master.bytes
        (Entropy.salt_byte hotpPrefixBytes siteS loginL) 100000) [1, 2, 3]).length = 32) ∧
    (lpM.secret_otp hotpPrefixBytes siteS loginL (List.replicate 32 7) =
      Except.ok (secretDecrypt (Algorithm.SHA256.pbkdf2 lpM.master.bytes
        (Entropy.salt_byte hotpPrefixBytes siteS loginL) 100000) (List.replicate 32 7))) ∧
    (lpM.secret_otp hotpPrefixBytes siteS loginL (List.replicate 40 7) =
        Except.ok (secretEncrypt (Algorithm.SHA512.pbkdf2 lpM.master.bytes
          (Entropy.salt_byte hotpPrefixBytes siteS loginL) 100000) (List.replicate 40 7)) ∧
      (secretEncrypt (Algorithm.SHA512.pbkdf2 lpM.master.bytes
        (Entropy.salt_byte hotpPrefixBytes siteS loginL) 100000) (List.replicate 40 7)).length = 64) ∧
    (lpM.secret_otp hotpPrefixBytes siteS loginL (List.replicate 64 7) =
      Except.ok (secretDecrypt (Algorithm.SHA512.pbkdf2 lpM.master.bytes
        (Entropy.salt_byte hotpPrefixBytes siteS loginL) 100000) (List.replicate 64 7))) ∧
    (lpM.secret_otp hotpPrefixBytes siteS loginL [] = Except.error LessPassError.InvalidLength ∧
      lpM.secret_otp hotpPrefixBytes siteS loginL (List.replicate 65 7) =
        Except.error LessPassError.InvalidLength) :=
  ⟨(c7_length_classification lpM hotpPrefixBytes siteS loginL [1, 2, 3]).1 (by decide) (by decide),
   (c7_length_classification lpM hotpPrefixBytes siteS loginL _).2.1 (by decide),
   (c7_length_classification lpM hotpPrefixBytes siteS loginL _).2.2.1 (by decide) (by decide),
   (c7_length_classification lpM hotpPrefixBytes siteS loginL _).2.2.2.1 (by decide),
   (c7_length_classification lpM hotpPrefixBytes siteS loginL []).2.2.2.2 (Or.inl (by decide)),
   (c7_length_classification lpM hotpPrefixBytes siteS loginL _).2.2.2.2 (Or.inr (by decide))⟩

/-! ## Claim C6: the seed cipher round-trips -/

theorem secret_otp_roundtrip (lp : LessPass) (prefixBytes site login seed : List Nat)
    (h : 1 ≤ seed.length ∧ seed.length ≤ 31 ∨ 33 ≤ seed.length ∧ seed.length ≤ 63) :
    (lp.secret_otp prefixBytes site login seed).bind
      (fun e => lp.secret_otp prefixBytes site login e) = Except.ok seed := by
  rcases h with ⟨h1, h2⟩ | ⟨h1, h2⟩
  · have hHlen : (Algorithm.SHA256.pbkdf2 lp.master.bytes
        (Entropy.salt_byte prefixBytes site login) 100000).length = 32 := length_pbkdf2 _ _ _ _
    have helen : (secretEncrypt (Algorithm.SHA256.pbkdf2 lp.master.bytes
        (Entropy.salt_byte prefixBytes site login) 100000) seed).length = 32 := by
      rw [length_secretEncrypt, hHlen]
    simp only [LessPass.secret_otp]
    rw [if_pos ⟨h1, by omega⟩]
    simp only [Except.bind]
    rw [if_neg (by omega), if_pos helen]
    exact congrArg Except.ok (secret_roundtrip _ seed (by omega) h1 (by omega))
  · have hHlen : (Algorithm.SHA512.pbkdf2 lp.master.bytes
        (Entropy.salt_byte prefixBytes site login) 100000).length = 64 := length_pbkdf2 _ _ _ _
    have helen : (secretEncrypt (Algorithm.SHA512.pbkdf2 lp.master.bytes
        (Entropy.salt_byte prefixBytes site login) 100000) seed).length = 64 := by
      rw [length_secretEncrypt, hHlen]
    simp only [LessPass.secret_otp]
    rw [if_neg (by omega), if_neg (by omega), if_pos ⟨h1, by omega⟩]
    simp only [Except.bind]
    rw [if_neg (by omega), if_neg (by omega), if_neg (by omega), if_pos helen]
    exact congrArg Except.ok (secret_roundtrip _ seed (by omega) (by omega) (by omega))

/-- C6: for every master secret, site, login and seed whose byte length
lies in [1,31] or [33,63], applying the seed-protection transform twice
with identical inputs returns the original seed, both through
`secret_hotp` and through `secret_totp`. -/
theorem c6_seed_roundtrip (lp : LessPass) (site login seed : List Nat)
    (h : 1 ≤ seed.length ∧ seed.length ≤ 31 ∨ 33 ≤ seed.length ∧ seed.length ≤ 63) :
    (lp.secret_hotp site login seed).bind
      (fun e => lp.secret_hotp site login e) = Except.ok seed ∧
    (lp.secret_totp site login seed).bind
      (fun e => lp.secret_totp site login e) = Except.ok seed :=
  ⟨secret_otp_roundtrip lp hotpPrefixBytes site login seed h,
   secret_otp_roundtrip lp totpPrefixBytes site login seed h⟩

/-- C6 witness: the 3-byte seed `[1, 2, 3]` (and, in the second
conjunct, a 40-byte seed) round-trips under master `"m"`, site `"s"`,
login `"l"`. -/
theorem c6_seed_roundtrip_witness :
    (lpM.secret_hotp siteS loginL [1, 2, 3]).bind
      (fun e => lpM.secret_hotp siteS loginL e) = Except.ok [1, 2, 3] ∧
    (lpM.secret_totp siteS loginL (List.replicate 40 7)).bind
      (fun e => lpM.secret_totp siteS loginL e) = Except.ok (List.replicate 40 7) :=
  ⟨(c6_seed_roundtrip lpM siteS loginL [1, 2, 3] (Or.inl (by decide))).1,
   (c6_seed_roundtrip lpM siteS loginL (List.replicate 40 7) (Or.inr (by decide))).2⟩


/-! ## Claim C9: dynamic truncation stays in bounds -/

/-- C9: for every `Otp` accepted by `Otp::new` (algorithm SHA-1, SHA-256
or SHA-512, so the HMAC digest has at least 20 bytes) and every counter,
the dynamic-truncation offset satisfies `offset + 3 < digest length`
(offset at most 15, digest at least 20 bytes), so all four byte accesses
of `hotp` are in bounds and `hotp` never panics. -/
theorem c9_hotp_offset_bounds (secret : List Nat) (digits : Nat) (alg : Option Algorithm)
    (period ts : Option Nat) (o : Otp)
    (h : Otp.new secret digits alg period ts = Except.ok o) :
    ∀ counter : Nat, o.hotpOffset counter + 3 < (o.hotpDigest counter).length := by
  intro counter
  simp only [Otp.new] at h
  split_ifs at h with h1 h2
  injection h with h
  subst h
  simp only [Otp.hotpOffset, Otp.hotpDigest, length_hmac]
  rcases h1 with h1 | h1 | h1 | h1 <;> subst h1 <;>
    simp only [Option.getD_none, Option.getD_some, digestLength] <;>
    exact Nat.lt_of_le_of_lt (Nat.add_le_add_right Nat.and_le_right 3) (by decide)

/-- C9 witness: `Otp::new` with an empty secret, 6 digits and the default
algorithm is accepted, and at counter 0 the four accessed indices are in
bounds. -/
theorem c9_hotp_offset_bounds_witness :
    (Otp.mk [] Algorithm.SHA1 6 30 0).hotpOffset 0 + 3 <
      ((Otp.mk [] Algorithm.SHA1 6 30 0).hotpDigest 0).length :=
  c9_hotp_offset_bounds [] 6 none none none (Otp.mk [] Algorithm.SHA1 6 30 0) (by decide) 0

/-! ## Claim C2: the HOTP computation and its RFC 4226 vectors -/

theorem lor_mul_pow (x y k : Nat) (h : y < 2 ^ k) : (x * 2 ^ k) ||| y = x * 2 ^ k + y := by
  refine Nat.eq_of_testBit_eq (fun i => ?_)
  rw [← Nat.shiftLeft_eq, Nat.testBit_lor, Nat.testBit_shiftLeft,
    show x <<< k = x * 2 ^ k from Nat.shiftLeft_eq x k,
    show x * 2 ^ k + y = 2 ^ k * x + y by ring, Nat.testBit_mul_pow_two_add x h i]
  by_cases hik : i < k
  · simp [Nat.not_le.mpr hik, hik]
  · have hik2 : k ≤ i := Nat.le_of_not_lt hik
    have hyf : y.testBit i = false :=
      Nat.testBit_lt_two_pow (lt_of_lt_of_le h (Nat.pow_le_pow_right (by decide) hik2))
    simp [hik2, hik, hyf]

theorem and_255_eq {b : Nat} (h : b < 256) : b &&& 0xff = b := by
  have h2 := Nat.and_pow_two_sub_one_eq_mod b 8
  norm_num at h2
  rw [h2]
  exact Nat.mod_eq_of_lt h

theorem combineBytes (b0 b1 b2 b3 : Nat) (h1 : b1 < 256) (h2 : b2 < 256) (h3 : b3 < 256) :
    ((b0 &&& 0x7f) <<< 24) ||| ((b1 &&& 0xff) <<< 16) ||| ((b2 &&& 0xff) <<< 8) |||
      (b3 &&& 0xff) = fromBytesBE [b0 &&& 0x7f, b1, b2, b3] := by
  rw [and_255_eq h1, and_255_eq h2, and_255_eq h3]
  have ha : b0 &&& 0x7f ≤ 127 := Nat.and_le_right
  rw [Nat.shiftLeft_eq, Nat.shiftLeft_eq, Nat.shiftLeft_eq]
  rw [lor_mul_pow (b0 &&& 0x7f) (b1 * 2 ^ 16) 24 (by norm_num; omega)]
  rw [show (b0 &&& 0x7f) * 2 ^ 24 + b1 * 2 ^ 16 = ((b0 &&& 0x7f) * 2 ^ 8 + b1) * 2 ^ 16
    by ring]
  rw [lor_mul_pow _ (b2 * 2 ^ 8) 16 (by norm_num; omega)]
  rw [show ((b0 &&& 0x7f) * 2 ^ 8 + b1) * 2 ^ 16 + b2 * 2 ^ 8 =
    (((b0 &&& 0x7f) * 2 ^ 8 + b1) * 2 ^ 8 + b2) * 2 ^ 8 by ring]
  rw [lor_mul_pow _ b3 8 (by omega)]
  simp only [fromBytesBE, List.foldl]
  ring

theorem hotp_eq_hotpSpec (o : Otp) (counter : Nat) : o.hotp counter = hotpSpec o counter := by
  simp only [Otp.hotp, hotpSpec, Otp.hotpDigest, Otp.hotpOffset]
  rw [combineBytes _ _ _ _ (hmac_getD_lt _ _ _ _) (hmac_getD_lt _ _ _ _)
    (hmac_getD_lt _ _ _ _)]


set_option maxRecDepth 1000000 in
/-- C2: with the defaults (SHA-1, 6 digits) and secret bytes
`"12345678901234567890"`, `Otp::new` yields `otpRfc`, whose `hotp` at
counters 0-9 returns exactly the RFC 4226 Appendix D tokens; and in
general `hotp(counter)` computes the digest as HMAC(secret, big-endian
8-byte counter), takes the offset from the low nibble of the last byte,
combines the 4 bytes at the offset big-endian with the top bit of the
first masked, reduces modulo `10^digits` and left-pads with `0` to
`digits` characters (the `hotpSpec` pipeline). -/
theorem c2_hotp_rfc4226 :
    Otp.new rfcSecret 6 none none none = Except.ok otpRfc ∧
    (otpRfc.hotp 0 = "755224" ∧ otpRfc.hotp 1 = "287082" ∧ otpRfc.hotp 2 = "359152" ∧
     otpRfc.hotp 3 = "969429" ∧ otpRfc.hotp 4 = "338314" ∧ otpRfc.hotp 5 = "254676" ∧
     otpRfc.hotp 6 = "287922" ∧ otpRfc.hotp 7 = "162583" ∧ otpRfc.hotp 8 = "399871" ∧
     otpRfc.hotp 9 = "520489") ∧
    (∀ (o : Otp) (counter : Nat), o.hotp counter = hotpSpec o counter) :=
  ⟨by decide, by decide, hotp_eq_hotpSpec⟩

/-! ## Claim C8: the fingerprint pipeline -/

theorem foldr_hex_eq_flatten (l : List Nat) :
    l.foldr (fun b acc => byteHexUpper b ++ acc) [] = (l.map byteHexUpper).flatten := by
  induction l with
  | nil => rfl
  | cons x xs ih =>
      simp only [List.foldr_cons, List.map_cons, List.flatten_cons, ih]

set_option maxRecDepth 1000000 in
/-- C8 (claim as stated, refuted): for the empty master password with
SHA-256 and an empty salt, the fingerprint computed by the source differs
from the claim's pipeline, which renders the HMAC digest as a standard
zero-padded uppercase hex string: the digest byte `0x08` (at index 4)
contributes a single character under the source's `{:X}` formatting, which
shifts the second and third 6-character chunks. -/
theorem c8_counterexample : lpEmpty.get_fingerprint [] ≠ fingerprintClaimPadded lpEmpty [] := by
  decide

/-- C8 (amended): `fingerprint(master, salt)` equals HMAC(master_bytes,
salt) rendered as an uppercase hex string with no per-byte zero padding
(each byte contributes its shortest uppercase hex form, one character for
bytes below 16), split into three consecutive 6-character chunks; each
chunk, parsed as a hexadecimal integer, is reduced modulo 14 to index the
fixed color table and modulo 46 to index the fixed icon table, yielding
exactly three (color, icon) pairs. -/
theorem c8_fingerprint_pipeline (lp : LessPass) (salt : List Nat) :
    lp.get_fingerprint salt = fingerprintAmended lp salt := by
  simp only [LessPass.get_fingerprint, fingerprintAmended, Fingerprint.get_fingerprint,
    get_color, get_icon, Master.fingerprint, Master.bytes, foldr_hex_eq_flatten,
    show COLORS.length = 14 from rfl, show ICONS.length = 46 from rfl]

end LP
